import Mathlib

/-!
Verification of the qiskit-nature active-space reduction engine
(`qiskit_nature/transformers/active_space_transformer.py`) and the fermionic
operator builder
(`qiskit_nature/problems/second_quantization/molecular/fermionic_op_builder.py`).

Numeric arrays are embedded as total functions over natural-number indices
paired with explicit dimensions; matrix entries are rationals (the Python code
performs exact tensor algebra on floats, with no approximate solves).
Python-level failures (exceptions) are embedded with `Except`.
Python `int` values that may be negative (orbital indices in user-supplied
lists) are embedded as `Int`, with numpy / list indexing semantics
(negative wrap-around, out-of-range errors) made explicit.
-/

/-- A dense real matrix, stored as a total function; the dimension is carried
separately by every operation that consumes it. -/
def Mat : Type := ℕ → ℕ → ℚ

/-- A dense real vector. -/
def Vec : Type := ℕ → ℚ

/-- A 4-index tensor (electron repulsion integrals, chemist ordering). -/
def Ten4 : Type := ℕ → ℕ → ℕ → ℕ → ℚ

/-- The zero matrix. -/
def zeroMat : Mat := fun _ _ => 0

/-- The zero 4-index tensor. -/
def zeroTen4 : Ten4 := fun _ _ _ _ => 0

/-- The exceptions that the transformer / builder code paths can raise.
`QiskitNatureError` instances are distinguished by their message:
  - `errInsufficientConfig`: "Insufficient Active-Space configuration. ..."
  - `errMoreElectrons`: "More electrons requested than available."
  - `errOddInactive`: "The number of inactive electrons must be even."
  - `errNumOrbitalsMismatch`: "The number of selected active orbital indices
     does not match the specified number of active orbitals."
  - `errMoreOrbitals`: "More orbitals requested than available."
  - `errElectronMismatch`: "The number of electrons in the selected active
     orbitals does not match the specified number of active electrons."
Python built-in exceptions that the code can hit are also modelled:
  - `errIndex`: numpy `IndexError` (out-of-range array index),
  - `errType`: `TypeError` (e.g. `getattr(obj, None)`),
  - `errValue`: `ValueError` (truth value of a multi-element array),
  - `errDimension`: the operator-algebra dimension error raised when operator
     sums over different register lengths are combined. -/
inductive PyErr : Type
  | errInsufficientConfig
  | errMoreElectrons
  | errOddInactive
  | errNumOrbitalsMismatch
  | errMoreOrbitals
  | errElectronMismatch
  | errIndex
  | errType
  | errValue
  | errDimension
  deriving DecidableEq, Repr

/-- Python / numpy scalar indexing of a length-`n` vector at a possibly
negative index: indices in `[0, n)` are direct, indices in `[-n, 0)` wrap
around, anything else raises `IndexError`. -/
def pyGetV (n : ℕ) (v : Vec) (i : ℤ) : Except PyErr ℚ :=
  if 0 ≤ i ∧ i < (n : ℤ) then Except.ok (v i.toNat)
  else if -(n : ℤ) ≤ i ∧ i < 0 then Except.ok (v (i + n).toNat)
  else Except.error PyErr.errIndex

/-- Resolution of a Python index known to be in `[-n, n)` to its effective
natural-number position. -/
def pyIdx (n : ℕ) (i : ℤ) : ℕ :=
  if 0 ≤ i then i.toNat else (i + n).toNat

/-- Whether a Python index is within bounds for a length-`n` axis. -/
def pyInBounds (n : ℕ) (i : ℤ) : Bool :=
  decide (-(n : ℤ) ≤ i ∧ i < (n : ℤ))

/-- `list(range(a, b))` over Python integers. -/
def intRange (a b : ℤ) : List ℤ :=
  (List.range (b - a).toNat).map (fun (i : ℕ) => a + (i : ℤ))

/-- The value of a successful column selection `M[:, idxs]`. -/
def colSel (n : ℕ) (M : Mat) (idxs : List ℤ) : Mat :=
  fun i j => M i (pyIdx n (idxs.getD j 0))

/-- The value of a successful vector selection `v[idxs]`. -/
def vecSel (n : ℕ) (v : Vec) (idxs : List ℤ) : Vec :=
  fun j => v (pyIdx n (idxs.getD j 0))

/-- numpy fancy indexing `M[:, idxs]` on an `n × n` matrix: every index must
be within `[-n, n)` (else `IndexError`); the result has `idxs.length`
columns. -/
def selectCols (n : ℕ) (M : Mat) (idxs : List ℤ) : Except PyErr Mat :=
  if idxs.all (pyInBounds n) then Except.ok (colSel n M idxs)
  else Except.error PyErr.errIndex

/-- numpy fancy indexing `v[idxs]` on a length-`n` vector. -/
def selectVec (n : ℕ) (v : Vec) (idxs : List ℤ) : Except PyErr Vec :=
  if idxs.all (pyInBounds n) then Except.ok (vecSel n v idxs)
  else Except.error PyErr.errIndex

/-- `sum(v[idxs])` for a length-`n` occupation vector with Python index
semantics (used by the explicit-list electron-count validation and by the
`freeze_core` inactive-electron count). -/
def pySumAt (n : ℕ) (v : Vec) (idxs : List ℤ) : Except PyErr ℚ :=
  idxs.foldlM (fun acc i => do
    let x ← pyGetV n v i
    pure (acc + x)) 0

/-- String-keyed float dictionary (the `*_energy_shift` attributes of a
`QMolecule`). -/
def ShiftDict : Type := String → Option ℚ

/-- The empty shift dictionary. -/
def emptyShift : ShiftDict := fun _ => none

/-- Python `d[key] = value` on a shift dictionary. -/
def setShift (d : ShiftDict) (key : String) (v : ℚ) : ShiftDict :=
  fun k => if k = key then some v else d k

/-- The `QMolecule` record as consumed and produced by
`ActiveSpaceTransformer.transform`.  `numOrbitals` is the (optional, integer)
`num_orbitals` attribute; array dimensions are derived from it.  Beta-spin
arrays are `none` exactly when the record is spin-restricted.  `numAlpha` and
`numBeta` are rationals because the `freeze_core` branch stores
float-valued particle counts computed from the occupation vector. -/
structure Molecule where
  numOrbitals : Option ℤ
  numAlpha : ℚ
  numBeta : ℚ
  multiplicity : ℤ
  hcore : Mat
  hcoreB : Option Mat
  eri : Ten4
  moCoeff : Mat
  moCoeffB : Option Mat
  moOcc : Option Vec
  moOccB : Option Vec
  orbitalEnergies : Vec
  orbitalEnergiesB : Option Vec
  coreOrbitals : List ℤ
  xDipInts : Mat
  yDipInts : Mat
  zDipInts : Mat
  moOneeInts : Mat
  moOneeIntsB : Option Mat
  moEriInts : Ten4
  moEriIntsBa : Option Ten4
  moEriIntsBb : Option Ten4
  xDipMoInts : Mat
  xDipMoIntsB : Option Mat
  yDipMoInts : Mat
  yDipMoIntsB : Option Mat
  zDipMoInts : Mat
  zDipMoIntsB : Option Mat
  energyShift : ShiftDict
  xDipEnergyShift : ShiftDict
  yDipEnergyShift : ShiftDict
  zDipEnergyShift : ShiftDict
  kinetic : Option Mat
  overlap : Option Mat

/-- The array dimension of a molecule (its integer `num_orbitals`,
clamped to a natural number for use as an array extent). -/
def Molecule.dim (m : Molecule) : ℕ := (m.numOrbitals.getD 0).toNat

/-- The constructor arguments of `ActiveSpaceTransformer`. -/
structure Config where
  numElectrons : Option ℤ
  numMolecularOrbitals : Option ℤ
  numAlpha : Option ℤ
  activeOrbitals : Option (List ℤ)
  freezeCore : Bool
  removeOrbitals : Option (List ℤ)

/-- `ActiveSpaceTransformer._check_configuration`: valid iff `freeze_core` is
set or both `num_electrons` and `num_molecular_orbitals` are integers. -/
def checkConfiguration (c : Config) : Bool :=
  c.freezeCore || (c.numElectrons.isSome && c.numMolecularOrbitals.isSome)

/-- `ActiveSpaceTransformer._extract_mo_occupation_vector`: when the driver
supplied no `mo_occ`, a closed-shell / high-spin ground-state occupation
vector is synthesized from `num_alpha` and `num_beta` (doubly filling the
lowest orbitals in the restricted case). -/
def extractMoOccupationVector (m : Molecule) (beta : Bool) : Vec × Option Vec :=
  match m.moOcc with
  | some v => (v, m.moOccB)
  | none =>
      let na := (⌊m.numAlpha⌋ : ℤ).toNat
      let nb := (⌊m.numBeta⌋ : ℤ).toNat
      let occA : Vec := fun i =>
        (if i < na then 1 else 0) +
          (if beta then 0 else if i < nb then 1 else 0)
      (occA, if beta then some (fun i => if i < nb then 1 else 0) else none)

/-- The total occupation vector `mo_occ_full[0] + mo_occ_full[1] if beta else
mo_occ_full[0]` (transform, line 145).  When the record is unrestricted but
`mo_occ_b` is absent, Python adds `None` to an array and raises a
`TypeError`. -/
def totalOccupation (beta : Bool) (occF : Vec × Option Vec) : Except PyErr Vec :=
  if beta then
    match occF.2 with
    | none => Except.error PyErr.errType
    | some b => Except.ok (fun i => occF.1 i + b i)
  else Except.ok occF.1

/-- Python float `x % 2` on a rational. -/
def floatMod2 (x : ℚ) : ℚ := x - 2 * ((⌊x / 2⌋ : ℤ) : ℚ)

/-- `ActiveSpaceTransformer._validate_num_electrons`: the inactive-electron
count must be non-negative (else "More electrons requested than available.")
and even (else "The number of inactive electrons must be even."). -/
def validateNumElectrons (nelecInactive : ℚ) : Except PyErr Unit :=
  if nelecInactive < 0 then Except.error PyErr.errMoreElectrons
  else if floatMod2 nelecInactive ≠ 0 then Except.error PyErr.errOddInactive
  else Except.ok ()

/-- `ActiveSpaceTransformer._validate_num_orbitals`.  Without an explicit
`active_orbitals` list, `norbs_inactive + num_molecular_orbitals` may not
exceed the total orbital count.  With an explicit list, its length must equal
`num_molecular_orbitals`, `max(list)` must be below the orbital count
(Python's `max` raises `ValueError` on an empty list, and negative indices
pass this check), and the occupations of the listed orbitals (read with
Python index semantics) must sum to `num_electrons`. -/
def validateNumOrbitals (n : ℕ) (occT : Vec) (c : Config)
    (nelecInactive : ℚ) : Except PyErr Unit :=
  match c.numMolecularOrbitals with
  | none => Except.error PyErr.errType
  | some nmo =>
    match c.activeOrbitals with
    | none =>
        let norbsInactive : ℤ := ⌊nelecInactive / 2⌋
        if (n : ℤ) < norbsInactive + nmo then Except.error PyErr.errMoreOrbitals
        else Except.ok ()
    | some lst =>
        if nmo ≠ (lst.length : ℤ) then Except.error PyErr.errNumOrbitalsMismatch
        else
          match lst.max? with
          | none => Except.error PyErr.errValue
          | some mx =>
            if (n : ℤ) ≤ mx then Except.error PyErr.errMoreOrbitals
            else do
              let s ← pySumAt n occT lst
              match c.numElectrons with
              | none => Except.error PyErr.errType
              | some ne =>
                if s ≠ (ne : ℚ) then Except.error PyErr.errElectronMismatch
                else Except.ok ()

/-- The inactive-orbital list of the explicit `active_orbitals` branch
(transform line 274): occupied orbitals below the Fermi cutoff that were not
selected.  The occupation lookup happens only for non-selected indices
(Python's short-circuit `and`). -/
def inactiveExplicit (n : ℕ) (occT : Vec) (bound : ℤ) (act : List ℤ) :
    Except PyErr (List ℤ) :=
  (intRange 0 bound).foldlM (fun acc o => do
    if o ∈ act then pure acc
    else
      let x ← pyGetV n occT o
      if 0 < x then pure (acc ++ [o]) else pure acc) []

/-- `ActiveSpaceTransformer._determine_active_space`.  Returns the pair of
active and inactive orbital index lists together with the
`(num_alpha, num_beta)` active-particle pair.  In the `freeze_core` branch no
numeric validation runs; the inactive set is `core_orbitals` extended by
`remove_orbitals`, and the only possible failure is an `IndexError` from the
occupation lookup.  Otherwise the electron- and orbital-count validations run
before the index sets are built. -/
def determineActiveSpace (m : Molecule) (c : Config) (occT : Vec)
    (_beta : Bool) : Except PyErr (List ℤ × List ℤ × (ℚ × ℚ)) :=
  let n := m.dim
  let nelecTotal : ℚ := m.numAlpha + m.numBeta
  if c.freezeCore then do
    let inactive := m.coreOrbitals ++ (c.removeOrbitals.getD [])
    let active := (intRange 0 (n : ℤ)).filter (fun o => decide (o ∉ inactive))
    let nelecInactive ← pySumAt n occT inactive
    let nelecActive := nelecTotal - nelecInactive
    let numAlpha : ℚ := ((⌊(nelecActive - ((m.multiplicity : ℚ) - 1)) / 2⌋ : ℤ) : ℚ)
    let numBeta := nelecActive - numAlpha
    pure (active, inactive, (numAlpha, numBeta))
  else
    match c.numElectrons with
    | none => Except.error PyErr.errType
    | some ne => do
      let nelecInactive : ℚ := nelecTotal - (ne : ℚ)
      let parts : ℚ × ℚ :=
        match c.numAlpha with
        | some na => ((na : ℚ), ((ne - na : ℤ) : ℚ))
        | none =>
            let nb : ℤ := Int.fdiv (ne - (m.multiplicity - 1)) 2
            (((ne - nb : ℤ) : ℚ), (nb : ℚ))
      validateNumElectrons nelecInactive
      validateNumOrbitals n occT c nelecInactive
      match c.activeOrbitals with
      | none =>
          let norbsInactive : ℤ := ⌊nelecInactive / 2⌋
          let nmo := c.numMolecularOrbitals.getD 0
          pure (intRange norbsInactive (norbsInactive + nmo),
                intRange 0 norbsInactive, parts)
      | some lst => do
          let inact ← inactiveExplicit n occT ⌊nelecTotal / 2⌋ lst
          pure (lst, inact, parts)

/-- `ActiveSpaceTransformer._compute_inactive_density_matrix` for one spin:
`np.dot(C_inactive * occ_inactive, C_inactive.T)`, i.e.
`D[i,j] = sum_k C[i,k] * occ[k] * C[j,k]` over the inactive columns. -/
def densityMat (nIn : ℕ) (Cin : Mat) (occIn : Vec) : Mat :=
  fun i j => ∑ k ∈ Finset.range nIn, Cin i k * occIn k * Cin j k

/-- The Coulomb contraction `np.einsum('ijkl,ji->kl', eri, D)`:
`J[k,l] = sum_{i,j} eri[i,j,k,l] * D[j,i]`. -/
def coulombInactive (n : ℕ) (eri : Ten4) (D : Mat) : Mat :=
  fun k l => ∑ i ∈ Finset.range n, ∑ j ∈ Finset.range n, eri i j k l * D j i

/-- The exchange contraction `np.einsum('ijkl,jk->il', eri, D)`:
`K[i,l] = sum_{j,k} eri[i,j,k,l] * D[j,k]`. -/
def exchangeInactive (n : ℕ) (eri : Ten4) (D : Mat) : Mat :=
  fun i l => ∑ j ∈ Finset.range n, ∑ k ∈ Finset.range n, eri i j k l * D j k

/-- The expression `hcore[1] or hcore[0]` (line 401).  Evaluating an `n x n`
numpy array with `n >= 2` in boolean context raises a `ValueError`; a `1 x 1`
array is truthy iff its entry is nonzero; `None` falls through to the
alpha-spin core Hamiltonian. -/
def hcoreFallback (n : ℕ) (hb : Option Mat) (h : Mat) : Except PyErr Mat :=
  match hb with
  | none => Except.ok h
  | some M =>
      if 2 ≤ n then Except.error PyErr.errValue
      else if n = 1 ∧ M 0 0 ≠ 0 then Except.ok M else Except.ok h

/-- `ActiveSpaceTransformer._compute_inactive_fock_op`.  Restricted case:
`F = hcore + J - 0.5 * K`.  Unrestricted case: both spins' Coulomb terms
enter and the same-spin exchange term is not halved. -/
def computeInactiveFockOp (beta : Bool) (n : ℕ) (h : Mat) (hb : Option Mat)
    (eri : Ten4) (Da : Mat) (Db : Option Mat) :
    Except PyErr (Mat × Option Mat) :=
  let J := coulombInactive n eri Da
  let K := exchangeInactive n eri Da
  if beta then do
    let hsb ← hcoreFallback n hb h
    let Dbv := Db.getD zeroMat
    let Jb := coulombInactive n eri Dbv
    let Kb := exchangeInactive n eri Dbv
    pure (fun i j => h i j + J i j + Jb i j - K i j,
          some (fun i j => hsb i j + J i j + Jb i j - Kb i j))
  else
    pure (fun i j => h i j + J i j - (1/2) * K i j, none)

/-- The trace contraction `np.einsum('ij,ji', D, X)`. -/
def traceContract (n : ℕ) (D X : Mat) : ℚ :=
  ∑ i ∈ Finset.range n, ∑ j ∈ Finset.range n, D i j * X j i

/-- `ActiveSpaceTransformer._compute_inactive_energy`:
`0.5 * einsum('ij,ji', D, hcore + F)` per spin, guarded by
`mo_coeff_inactive.size > 0`.  In the unrestricted branch the beta term reads
`hcore[1]` directly, so an absent beta core Hamiltonian raises a `TypeError`
(`None + array`). -/
def computeInactiveEnergy (beta : Bool) (n nIn : ℕ) (h : Mat) (hb : Option Mat)
    (Fa : Mat) (Fb : Option Mat) (Da : Mat) (Db : Option Mat) :
    Except PyErr ℚ :=
  if beta = false ∧ 0 < n * nIn then
    Except.ok ((1/2) * traceContract n Da (fun i j => h i j + Fa i j))
  else if beta = true ∧ 0 < n * nIn then
    match hb with
    | none => Except.error PyErr.errType
    | some hbM =>
        Except.ok ((1/2) * traceContract n Da (fun i j => h i j + Fa i j) +
          (1/2) * traceContract n (Db.getD zeroMat)
            (fun i j => hbM i j + (Fb.getD zeroMat) i j))
  else Except.ok 0

/-- The one-body active-space projection `C_active.T * F * C_active`
(`_compute_active_integrals`, line 456). -/
def activeOneBody (n : ℕ) (Ca : Mat) (F : Mat) : Mat :=
  fun i j => ∑ p ∈ Finset.range n, ∑ q ∈ Finset.range n, Ca p i * F p q * Ca q j

/-- The two-body active-space projection
`np.einsum('pqrs,pi,qj,rk,sl->ijkl', eri, C1, C2, C3, C4)`. -/
def activeTwoBody (n : ℕ) (C1 C2 C3 C4 : Mat) (eri : Ten4) : Ten4 :=
  fun i j k l =>
    ∑ p ∈ Finset.range n, ∑ q ∈ Finset.range n,
      ∑ r ∈ Finset.range n, ∑ s ∈ Finset.range n,
        eri p q r s * C1 p i * C2 q j * C3 r k * C4 s l

/-- The values produced by one `_reduce_to_active_space` call: the inactive
operator pair (stored back into the AO-basis attributes), the energy shift,
the reduced one-body pair (MO-basis attributes) and, when a two-body tensor
was given, the reduced two-body tensors `(aa, ba, bb)`. -/
structure ReduceOut where
  op : Mat × Option Mat
  shift : ℚ
  mo1 : Mat × Option Mat
  mo2 : Option (Ten4 × Option Ten4 × Option Ten4)

/-- The computational core of `ActiveSpaceTransformer._reduce_to_active_space`
(lines 358-366): without a two-body tensor the inactive operator is a copy of
the one-body matrix pair; with one it is the inactive Fock operator.  The
energy shift and the active-space projections follow. -/
def reduceToActiveSpace (beta : Bool) (n nIn : ℕ) (CaA : Mat) (CaB : Option Mat)
    (Da : Mat) (Db : Option Mat) (ao1 : Mat × Option Mat) (ao2 : Option Ten4) :
    Except PyErr ReduceOut := do
  let op ← match ao2 with
    | none => pure ao1
    | some e => computeInactiveFockOp beta n ao1.1 ao1.2 e Da Db
  let sh ← computeInactiveEnergy beta n nIn ao1.1 ao1.2 op.1 op.2 Da Db
  let h1a := activeOneBody n CaA op.1
  let h1b := if beta then
      some (activeOneBody n (CaB.getD zeroMat) (op.2.getD zeroMat))
    else none
  let mo2 := ao2.map (fun e =>
    (activeTwoBody n CaA CaA CaA CaA e,
     if beta then
       some (activeTwoBody n (CaB.getD zeroMat) (CaB.getD zeroMat) CaA CaA e)
     else none,
     if beta then
       some (activeTwoBody n (CaB.getD zeroMat) (CaB.getD zeroMat)
         (CaB.getD zeroMat) (CaB.getD zeroMat) e)
     else none))
  pure ⟨op, sh, (h1a, h1b), mo2⟩

/-- The arrays sliced in `transform` lines 150-155: inactive and active
molecular-orbital coefficient blocks and the inactive occupation block,
per spin. -/
structure Sliced where
  CinA : Mat
  CinB : Option Mat
  CactA : Mat
  CactB : Option Mat
  occInA : Vec
  occInB : Option Vec

/-- The beta-spin variant of a column selection (`None` when restricted). -/
def selColsOpt (n : ℕ) (beta : Bool) (mo : Option Mat) (idxs : List ℤ) :
    Except PyErr (Option Mat) :=
  if beta then (selectCols n (mo.getD zeroMat) idxs).map some else pure none

/-- The beta-spin variant of a vector selection (`None` when restricted). -/
def selVecOpt (n : ℕ) (beta : Bool) (vo : Option Vec) (idxs : List ℤ) :
    Except PyErr (Option Vec) :=
  if beta then (selectVec n (vo.getD (fun _ => 0)) idxs).map some else pure none

/-- `transform` lines 150-155: numpy column / fancy-index selection of the
coefficient and occupation arrays by the active and inactive index lists. -/
def sliceArrays (n : ℕ) (beta : Bool) (m : Molecule) (occF : Vec × Option Vec)
    (act inact : List ℤ) : Except PyErr Sliced := do
  let cinA ← selectCols n m.moCoeff inact
  let cinB ← selColsOpt n beta m.moCoeffB inact
  let cactA ← selectCols n m.moCoeff act
  let cactB ← selColsOpt n beta m.moCoeffB act
  let occInA ← selectVec n occF.1 inact
  let occInB ← selVecOpt n beta occF.2 inact
  pure ⟨cinA, cinB, cactA, cactB, occInA, occInB⟩

/-- The dictionary key under which `transform` records every energy shift. -/
def shiftKey : String := "ActiveSpaceTransformer"

/-- The attribute stores of the electronic `_reduce_to_active_space` call
(lines 368-378 with the electronic attribute names): the energy shift, the
AO-basis one-body matrices (overwritten by the inactive Fock operator), the
MO-basis one-body matrices and the MO-basis two-body tensors. -/
def storeElectronic (beta : Bool) (red : Molecule) (out : ReduceOut) : Molecule :=
  let red1 := { red with
    energyShift := setShift red.energyShift shiftKey out.shift,
    hcore := out.op.1,
    moOneeInts := out.mo1.1 }
  let red2 := if beta then
      { red1 with hcoreB := out.op.2, moOneeIntsB := out.mo1.2 }
    else red1
  match out.mo2 with
  | none => red2
  | some t =>
      let red3 := { red2 with moEriInts := t.1 }
      if beta then { red3 with moEriIntsBa := t.2.1, moEriIntsBb := t.2.2 }
      else red3

/-- A dipole axis. -/
inductive Axis : Type
  | x
  | y
  | z
  deriving DecidableEq, Repr

/-- The AO-basis dipole integrals of an axis. -/
def dipAo (m : Molecule) : Axis → Mat
  | Axis.x => m.xDipInts
  | Axis.y => m.yDipInts
  | Axis.z => m.zDipInts

/-- The attribute stores of a dipole `_reduce_to_active_space` call.  The
beta-spin branch of lines 371-373 is unreachable for dipole axes: with a
beta-unrestricted molecule the earlier `getattr(q_molecule, None)` (line 352,
second attribute name `None`) has already raised a `TypeError`. -/
def storeDipole (red : Molecule) (a : Axis) (out : ReduceOut) : Molecule :=
  match a with
  | Axis.x => { red with
      xDipEnergyShift := setShift red.xDipEnergyShift shiftKey out.shift,
      xDipInts := out.op.1,
      xDipMoInts := out.mo1.1 }
  | Axis.y => { red with
      yDipEnergyShift := setShift red.yDipEnergyShift shiftKey out.shift,
      yDipInts := out.op.1,
      yDipMoInts := out.mo1.1 }
  | Axis.z => { red with
      zDipEnergyShift := setShift red.zDipEnergyShift shiftKey out.shift,
      zDipInts := out.op.1,
      zDipMoInts := out.mo1.1 }

/-- The one-body pair read for a dipole axis (line 351-352 with
`ao_1e_attribute = ('*_dip_ints', None)`): for an unrestricted molecule
Python evaluates `getattr(q_molecule, None)` and raises a `TypeError`. -/
def dipoleAo1 (beta : Bool) (d : Mat) : Except PyErr (Mat × Option Mat) :=
  if beta then Except.error PyErr.errType else Except.ok (d, none)

/-- The beta-spin orbital energies selection of line 169 (`None` when the
molecule is restricted; an unrestricted molecule without
`orbital_energies_b` hits `None[...]`, a `TypeError`). -/
def selectOrbEnergiesB (n : ℕ) (beta : Bool) (m : Molecule) (act : List ℤ) :
    Except PyErr (Option Vec) :=
  if beta then
    match m.orbitalEnergiesB with
    | none => Except.error PyErr.errType
    | some v => (selectVec n v act).map some
  else Except.ok none

/-- The values computed by `transform` before the reduction calls: lines
141-157 and the fallible parts of the reduced-record assembly (the
orbital-energy selections of lines 167-169). -/
structure StageData where
  n : ℕ
  beta : Bool
  occT : Vec
  act : List ℤ
  inact : List ℤ
  parts : ℚ × ℚ
  sl : Sliced
  oeA : Vec
  oeB : Option Vec

/-- The fallible preparation phase of `ActiveSpaceTransformer.transform`
(configuration check, occupation extraction, active-space determination,
array slicing, orbital-energy selection), in statement order. -/
def transformPrep (m : Molecule) (c : Config) : Except PyErr StageData :=
  if checkConfiguration c = false then
    Except.error PyErr.errInsufficientConfig
  else
    let n := m.dim
    let beta := m.moCoeffB.isSome
    let occF := extractMoOccupationVector m beta
    match totalOccupation beta occF with
    | Except.error e => Except.error e
    | Except.ok occT =>
      match determineActiveSpace m c occT beta with
      | Except.error e => Except.error e
      | Except.ok (act, inact, parts) =>
        match sliceArrays n beta m occF act inact with
        | Except.error e => Except.error e
        | Except.ok sl =>
          match selectVec n m.orbitalEnergies act with
          | Except.error e => Except.error e
          | Except.ok oeA =>
            match selectOrbEnergiesB n beta m act with
            | Except.error e => Except.error e
            | Except.ok oeB =>
              Except.ok ⟨n, beta, occT, act, inact, parts, sl, oeA, oeB⟩

/-- The remainder of `ActiveSpaceTransformer.transform`: the inactive density
matrices, the reduced-record assembly (lines 159-171) and the four
`_reduce_to_active_space` calls — electronic integrals first, then the three
dipole axes, each dipole call reading its one-body pair through
`getattr(q_molecule, None)` for the beta component. -/
def transformBody (m : Molecule) (c : Config) (d : StageData) :
    Except PyErr Molecule :=
  let nIn := d.inact.length
  let da := densityMat nIn d.sl.CinA d.sl.occInA
  let db := if d.beta then
      some (densityMat nIn (d.sl.CinB.getD zeroMat)
        (d.sl.occInB.getD (fun _ => 0)))
    else none
  let red0 := { m with
    numOrbitals := c.numMolecularOrbitals,
    numAlpha := d.parts.1,
    numBeta := d.parts.2,
    moCoeff := d.sl.CactA,
    moCoeffB := d.sl.CactB,
    orbitalEnergies := d.oeA,
    orbitalEnergiesB :=
      match d.oeB with
      | some v => some v
      | none => m.orbitalEnergiesB,
    kinetic := none,
    overlap := none }
  match reduceToActiveSpace d.beta d.n nIn d.sl.CactA d.sl.CactB da db
      (m.hcore, if d.beta then m.hcoreB else none) (some m.eri) with
  | Except.error e => Except.error e
  | Except.ok outE =>
    let red1 := storeElectronic d.beta red0 outE
    match dipoleAo1 d.beta (dipAo m Axis.x) with
    | Except.error e => Except.error e
    | Except.ok ao1x =>
      match reduceToActiveSpace d.beta d.n nIn d.sl.CactA d.sl.CactB da db
          ao1x none with
      | Except.error e => Except.error e
      | Except.ok outX =>
        let red2 := storeDipole red1 Axis.x outX
        match dipoleAo1 d.beta (dipAo m Axis.y) with
        | Except.error e => Except.error e
        | Except.ok ao1y =>
          match reduceToActiveSpace d.beta d.n nIn d.sl.CactA d.sl.CactB da db
              ao1y none with
          | Except.error e => Except.error e
          | Except.ok outY =>
            let red3 := storeDipole red2 Axis.y outY
            match dipoleAo1 d.beta (dipAo m Axis.z) with
            | Except.error e => Except.error e
            | Except.ok ao1z =>
              match reduceToActiveSpace d.beta d.n nIn d.sl.CactA d.sl.CactB
                  da db ao1z none with
              | Except.error e => Except.error e
              | Except.ok outZ =>
                Except.ok (storeDipole red3 Axis.z outZ)

/-- `ActiveSpaceTransformer.transform`, with the final state of the input
record threaded explicitly as the second component.  Modelled from the spec:
the external `QMolecule` record follows copy-then-modify semantics —
`copy.deepcopy` yields a fully independent record and `core_orbitals` is a
derived index list, so every attribute write of `transform` targets the deep
copy `q_molecule_reduced` (or transformer-local scratch state); each exit
therefore returns the input state the call was entered with. -/
def transformTracked (m : Molecule) (c : Config) :
    Except PyErr Molecule × Molecule :=
  match transformPrep m c with
  | Except.error e => (Except.error e, m)
  | Except.ok d =>
    match transformBody m c d with
    | Except.error e => (Except.error e, m)
    | Except.ok red => (Except.ok red, m)

/-- `ActiveSpaceTransformer.transform`: the returned (or raised) result. -/
def transform (m : Molecule) (c : Config) : Except PyErr Molecule :=
  (transformTracked m c).1

/-- Modelled from the spec: the external `FermionicOp` operator algebra
(`qiskit_nature.operators.FermionicOp`, not among the sources) as described
in the data model — an operator sum is an ordered sequence of
(operator-string label, coefficient) pairs over a fixed register length
(the orbital count); all labels in one sum have that length.  A label is
embedded as the ordered list of its non-identity single-orbital factors
`(mode, isCreation)`; the all-identity label is the empty list. -/
structure FOp where
  regLen : ℕ
  terms : List (List (ℕ × Bool) × ℚ)
  deriving DecidableEq, Repr

/-- Modelled from the spec: scalar multiplication of an operator sum. -/
def FOp.smul (c : ℚ) (a : FOp) : FOp :=
  ⟨a.regLen, a.terms.map (fun t => (t.1, c * t.2))⟩

/-- Modelled from the spec: composition of operator sums — term-by-term
products of the operator strings (factor lists concatenate, coefficients
multiply); sums over different register lengths do not compose and fail with
the dimension error. -/
def FOp.matmul (a b : FOp) : Except PyErr FOp :=
  if a.regLen = b.regLen then
    Except.ok ⟨a.regLen,
      a.terms.flatMap (fun s => b.terms.map (fun t => (s.1 ++ t.1, s.2 * t.2)))⟩
  else Except.error PyErr.errDimension

/-- Modelled from the spec: addition of operator sums concatenates their term
sequences; sums over different register lengths fail with the dimension
error. -/
def FOp.add (a b : FOp) : Except PyErr FOp :=
  if a.regLen = b.regLen then Except.ok ⟨a.regLen, a.terms ++ b.terms⟩
  else Except.error PyErr.errDimension

/-- Modelled from the spec: canonicalization ("reduce") — terms sharing an
identical label are merged by summing coefficients (in first-occurrence
order) and terms whose resulting coefficient is exactly zero are dropped. -/
def FOp.reduce (a : FOp) : FOp :=
  ⟨a.regLen,
    ((a.terms.map Prod.fst).dedup.map (fun l =>
      (l, ((a.terms.filter (fun t => decide (t.1 = l))).map Prod.snd).sum))).filter
        (fun t => decide (t.2 ≠ 0))⟩

/-- The single-site operator string `FermionicOp` built from a label that is
identity everywhere except one site (coefficient one). -/
def FOp.single (n : ℕ) (i : ℕ) (cr : Bool) : FOp := ⟨n, [([(i, cr)], 1)]⟩

/-- The index pairs of `itertools.product(range(n), repeat=2)` in iteration
order. -/
def pairsList (n : ℕ) : List (ℕ × ℕ) :=
  (List.range n).flatMap (fun i => (List.range n).map (fun j => (i, j)))

/-- The index quadruples of `itertools.product(range(n), repeat=4)` in
iteration order. -/
def quadsList (n : ℕ) : List (ℕ × ℕ × ℕ × ℕ) :=
  (List.range n).flatMap (fun i =>
    (List.range n).flatMap (fun j =>
      (List.range n).flatMap (fun k =>
        (List.range n).map (fun l => (i, j, k, l)))))

/-- `_fill_ferm_op_one_body_ints`: for every index pair with a nonzero
coefficient, compose `coeff * I` with the creation factor at `idx[0]` and the
annihilation factor at `idx[1]`, and add the result to the running sum;
exact-zero entries are skipped. -/
def fillOneBody (n : ℕ) (h1 : Mat) (op0 : FOp) : Except PyErr FOp :=
  (pairsList n).foldlM (fun op ij =>
    if h1 ij.1 ij.2 = 0 then pure op
    else do
      let b0 := FOp.smul (h1 ij.1 ij.2) ⟨n, [([], 1)]⟩
      let b1 ← b0.matmul (FOp.single n ij.1 true)
      let b2 ← b1.matmul (FOp.single n ij.2 false)
      op.add b2) op0

/-- `_fill_ferm_op_two_body_ints`: for every index quadruple with a nonzero
coefficient (chemist order), compose `coeff * I` with creation factors at
`idx[0]`, `idx[2]` and annihilation factors at `idx[3]`, `idx[1]`, and add
the result to the running sum; exact-zero entries are skipped.  The register
length of these labels is the two-body tensor's dimension. -/
def fillTwoBody (n2 : ℕ) (h2 : Ten4) (op0 : FOp) : Except PyErr FOp :=
  (quadsList n2).foldlM (fun op q =>
    if h2 q.1 q.2.1 q.2.2.1 q.2.2.2 = 0 then pure op
    else do
      let b0 := FOp.smul (h2 q.1 q.2.1 q.2.2.1 q.2.2.2) ⟨n2, [([], 1)]⟩
      let b1 ← b0.matmul (FOp.single n2 q.1 true)
      let b2 ← b1.matmul (FOp.single n2 q.2.2.1 true)
      let b3 ← b2.matmul (FOp.single n2 q.2.2.2 false)
      let b4 ← b3.matmul (FOp.single n2 q.2.1 false)
      op.add b4) op0

/-- `build_ferm_op_from_ints`: start from the length-`n1` identity-label term
(modelled from the spec: with zero coefficient, per §4.2 step 1), run the
one-body pass, run the two-body pass when a tensor is supplied (carrying its
own dimension `n2 = len(two_body_integrals)`), and canonicalize. -/
def buildFermOpFromInts (n1 : ℕ) (h1 : Mat) (two : Option (ℕ × Ten4)) :
    Except PyErr FOp := do
  let op0 : FOp := ⟨n1, [([], 0)]⟩
  let op1 ← fillOneBody n1 h1 op0
  let op2 ← match two with
    | none => pure op1
    | some p => fillTwoBody p.1 p.2 op1
  pure op2.reduce

/-- The raised exception of a result, if any. -/
def errOf {α : Type} : Except PyErr α → Option PyErr
  | Except.error e => some e
  | Except.ok _ => none

/-- Whether a result is a normal return. -/
def isOkE {α : Type} : Except PyErr α → Bool
  | Except.error _ => false
  | Except.ok _ => true

/-! ### Generic helper lemmas -/

lemma exceptBind_error {α β : Type} (x : Except PyErr α) (f : α → Except PyErr β)
    (e : PyErr) (h : x = Except.error e) : x >>= f = Except.error e := by
  subst h; rfl

lemma exceptBind_okv {α β : Type} (x : Except PyErr α) (f : α → Except PyErr β)
    (a : α) (h : x = Except.ok a) : x >>= f = f a := by
  subst h; rfl

/-- A monadic fold whose body skips every element of the list is the
identity. -/
lemma foldlM_skip {α β : Type} (f : β → α → Except PyErr β) :
    ∀ (L : List α), (∀ o x, x ∈ L → f o x = pure o) →
      ∀ b, L.foldlM f b = pure b := by
  intro L
  induction L with
  | nil => intro _ b; rw [List.foldlM_nil]
  | cons a t ih =>
    intro h b
    rw [List.foldlM_cons, h b a (List.mem_cons_self a t)]
    have ht := ih (fun o x hx => h o x (List.mem_cons_of_mem a hx)) b
    simpa using ht

/-- A monadic fold whose body succeeds and preserves an invariant yields a
result satisfying the invariant. -/
lemma foldlM_ok_inv {α β : Type} (f : β → α → Except PyErr β) (P : β → Prop) :
    ∀ (L : List α),
      (∀ b x, x ∈ L → P b → ∃ b2, f b x = Except.ok b2 ∧ P b2) →
      ∀ b, P b → ∃ b2, L.foldlM f b = Except.ok b2 ∧ P b2 := by
  intro L
  induction L with
  | nil => intro _ b hb; exact ⟨b, by rw [List.foldlM_nil]; rfl, hb⟩
  | cons a t ih =>
    intro h b hb
    obtain ⟨b1, hf, hb1⟩ := h b a (List.mem_cons_self a t) hb
    obtain ⟨b2, hfold, hb2⟩ :=
      ih (fun o x hx ho => h o x (List.mem_cons_of_mem a hx) ho) b1 hb1
    refine ⟨b2, ?_, hb2⟩
    rw [List.foldlM_cons, hf]
    simpa using hfold

lemma mem_pairsList {n : ℕ} {x : ℕ × ℕ} (h : x ∈ pairsList n) :
    x.1 < n ∧ x.2 < n := by
  simp only [pairsList, List.mem_flatMap, List.mem_map, List.mem_range] at h
  obtain ⟨i, hi, j, hj, rfl⟩ := h
  exact ⟨hi, hj⟩

lemma mem_quadsList {n : ℕ} {x : ℕ × ℕ × ℕ × ℕ} (h : x ∈ quadsList n) :
    x.1 < n ∧ x.2.1 < n ∧ x.2.2.1 < n ∧ x.2.2.2 < n := by
  simp only [quadsList, List.mem_flatMap, List.mem_map, List.mem_range] at h
  obtain ⟨i, hi, j, hj, k, hk, l, hl, rfl⟩ := h
  exact ⟨hi, hj, hk, hl⟩

/-- All entries of a 4-index tensor within an `n`-sized range are zero. -/
def allZero4 (n : ℕ) (t : Ten4) : Prop :=
  ∀ i j k l, i < n → j < n → k < n → l < n → t i j k l = 0

/-- A 4-index tensor with a single unit entry at the origin. -/
def unitTen4 : Ten4 := fun i j k l =>
  if i = 0 ∧ j = 0 ∧ k = 0 ∧ l = 0 then 1 else 0

/-- The one-body pass always succeeds and preserves the register length of
the running sum (its labels are built over `len(one_body_integrals)`). -/
lemma fillOneBody_ok (n : ℕ) (h1 : Mat) (b : FOp) (hb : b.regLen = n) :
    ∃ op, fillOneBody n h1 b = Except.ok op ∧ op.regLen = n := by
  apply foldlM_ok_inv _ (fun o => o.regLen = n) _ _ b hb
  intro o x _ ho
  by_cases hz : h1 x.1 x.2 = 0
  · exact ⟨o, by simp [hz]; rfl, ho⟩
  · refine ⟨⟨n, o.terms ++ [([(x.1, true), (x.2, false)], h1 x.1 x.2)]⟩, ?_, rfl⟩
    obtain ⟨rl, ts⟩ := o
    simp only [FOp.regLen] at ho
    subst ho
    simp [hz, FOp.smul, FOp.single, FOp.matmul, FOp.add, Bind.bind, Except.bind]

/-- The two-body pass over an all-zero tensor skips every entry. -/
lemma fillTwoBody_allZero (n2 : ℕ) (t : Ten4) (b : FOp)
    (hz : allZero4 n2 t) : fillTwoBody n2 t b = pure b := by
  apply foldlM_skip
  intro o x hx
  obtain ⟨ha, hb2, hc, hd⟩ := mem_quadsList hx
  simp [hz x.1 x.2.1 x.2.2.1 x.2.2.2 ha hb2 hc hd]

lemma quadsList_mem_of_lt {n i j k l : ℕ} (hi : i < n) (hj : j < n)
    (hk : k < n) (hl : l < n) : (i, j, k, l) ∈ quadsList n := by
  simp only [quadsList, List.mem_flatMap, List.mem_map, List.mem_range]
  exact ⟨i, hi, j, hj, k, hk, l, hl, rfl⟩

/-- Auxiliary induction for `fillTwoBody_mismatch`, over an arbitrary prefix
of the iteration list: with a running sum of register length `n1 ≠ n2`, the
first nonzero entry produces a term of length `n2` whose addition fails with
the dimension error. -/
lemma fillTwoBody_mismatchAux (n1 n2 : ℕ) (hne : n1 ≠ n2) (t : Ten4) :
    ∀ (L : List (ℕ × ℕ × ℕ × ℕ)) (b : FOp), b.regLen = n1 →
      (¬ ∀ x ∈ L, t x.1 x.2.1 x.2.2.1 x.2.2.2 = 0) →
      L.foldlM (fun op q =>
        if t q.1 q.2.1 q.2.2.1 q.2.2.2 = 0 then pure op
        else do
          let b0 := FOp.smul (t q.1 q.2.1 q.2.2.1 q.2.2.2) ⟨n2, [([], 1)]⟩
          let b1 ← b0.matmul (FOp.single n2 q.1 true)
          let b2 ← b1.matmul (FOp.single n2 q.2.2.1 true)
          let b3 ← b2.matmul (FOp.single n2 q.2.2.2 false)
          let b4 ← b3.matmul (FOp.single n2 q.2.1 false)
          op.add b4) b = Except.error PyErr.errDimension := by
  intro L
  induction L with
  | nil => intro b _ hbad; exact absurd (fun x hx => absurd hx (List.not_mem_nil x)) hbad
  | cons a rest ih =>
    intro b hb hbad
    by_cases hz : t a.1 a.2.1 a.2.2.1 a.2.2.2 = 0
    · rw [List.foldlM_cons]
      simp only [hz, if_pos]
      have : ¬ ∀ x ∈ rest, t x.1 x.2.1 x.2.2.1 x.2.2.2 = 0 := by
        intro hall
        exact hbad (fun x hx => by
          rcases List.mem_cons.mp hx with h | h
          · subst h; exact hz
          · exact hall x h)
      simpa using ih b hb this
    · rw [List.foldlM_cons]
      obtain ⟨rl, ts⟩ := b
      simp only [FOp.regLen] at hb
      subst hb
      simp [hz, FOp.smul, FOp.single, FOp.matmul, FOp.add, hne, Bind.bind,
        Except.bind]

/-- With mismatched register lengths, the two-body pass fails with the
dimension error as soon as some in-range entry is nonzero. -/
lemma fillTwoBody_mismatch (n1 n2 : ℕ) (hne : n1 ≠ n2) (t : Ten4) (b : FOp)
    (hb : b.regLen = n1) (hbad : ¬ allZero4 n2 t) :
    fillTwoBody n2 t b = Except.error PyErr.errDimension := by
  have hbad2 : ¬ ∀ x ∈ quadsList n2, t x.1 x.2.1 x.2.2.1 x.2.2.2 = 0 := by
    intro hall
    exact hbad (fun i j k l hi hj hk hl =>
      hall (i, j, k, l) (quadsList_mem_of_lt hi hj hk hl))
  unfold fillTwoBody
  exact fillTwoBody_mismatchAux n1 n2 hne t (quadsList n2) b hb hbad2

/-- Shared evaluation lemma: the builder on all-zero integrals returns the
empty canonical sum (every loop entry is skipped and canonicalization drops
the zero-coefficient identity start term). -/
lemma buildFermOp_allZero (n1 : ℕ) (h1 : Mat) (two : Option (ℕ × Ten4))
    (hz1 : ∀ i j, i < n1 → j < n1 → h1 i j = 0)
    (hz2 : ∀ n2 t, two = some (n2, t) → allZero4 n2 t) :
    buildFermOpFromInts n1 h1 two = Except.ok ⟨n1, []⟩ := by
  have h1fold : fillOneBody n1 h1 ⟨n1, [([], 0)]⟩ = pure ⟨n1, [([], 0)]⟩ := by
    apply foldlM_skip
    intro o x hx
    obtain ⟨hxi, hxj⟩ := mem_pairsList hx
    simp [hz1 x.1 x.2 hxi hxj]
  have hred : FOp.reduce ⟨n1, [([], 0)]⟩ = (⟨n1, []⟩ : FOp) := by
    simp [FOp.reduce]
  unfold buildFermOpFromInts
  rw [exceptBind_okv _ _ _ h1fold]
  match two with
  | none =>
    simp [hred]; rfl
  | some (n2, t) =>
    have h2fold : fillTwoBody n2 t ⟨n1, [([], 0)]⟩ = pure ⟨n1, [([], 0)]⟩ :=
      fillTwoBody_allZero n2 t _ (hz2 n2 t rfl)
    simp [h2fold, hred]; rfl

/-! ### Claim C4 -/

/-- Claim C4: for every orbital count, building a second-quantized operator
from an all-zero one-body integral matrix, with the two-body tensor all-zero
or absent, yields the canonical empty sum — the result contains no term with
a nonzero coefficient (the identity-label start term carries coefficient
zero and is dropped by canonicalization). -/
theorem c4_zero_integrals_yield_empty_sum (n1 : ℕ) (h1 : Mat)
    (two : Option (ℕ × Ten4))
    (hz1 : ∀ i j, i < n1 → j < n1 → h1 i j = 0)
    (hz2 : ∀ n2 t, two = some (n2, t) → allZero4 n2 t) :
    buildFermOpFromInts n1 h1 two = Except.ok ⟨n1, []⟩ :=
  buildFermOp_allZero n1 h1 two hz1 hz2

/-- Witness for C4 at the concrete input `n = 2`, all-zero one- and two-body
integrals. -/
theorem c4_zero_integrals_yield_empty_sum_witness :
    buildFermOpFromInts 2 zeroMat (some (2, zeroTen4)) = Except.ok ⟨2, []⟩ :=
  c4_zero_integrals_yield_empty_sum 2 zeroMat (some (2, zeroTen4))
    (fun _ _ _ _ => rfl)
    (fun _ _ ht => by cases ht; exact fun _ _ _ _ _ _ _ _ => rfl)

/-! ### Claim C8 -/

/-- Claim C8 counterexample: a one-body matrix of dimension 1 paired with a
two-body tensor of dimension 2 has inconsistent orbital dimensions, yet the
builder raises no `DimensionError` and returns an operator sum, because the
mismatched tensor is all-zero and no term of it is ever added (the builder
performs no explicit shape check). -/
theorem c8_mismatched_dims_counterexample :
    buildFermOpFromInts 1 zeroMat (some (2, zeroTen4)) = Except.ok ⟨1, []⟩ :=
  buildFermOp_allZero 1 zeroMat (some (2, zeroTen4))
    (fun _ _ _ _ => rfl)
    (fun _ _ ht => by cases ht; exact fun _ _ _ _ _ _ _ _ => rfl)

/-- Claim C8 (amended): with one- and two-body dimensions `n1 ≠ n2`, the
builder fails with the `DimensionError` iff the two-body tensor has a nonzero
entry in range (the error surfaces when the first such term, built over
register length `n2`, is added to the length-`n1` sum); if every in-range
entry is zero, no dimension check ever happens and an operator sum is
returned. -/
theorem c8_mismatched_dims_amended (n1 n2 : ℕ) (h1 : Mat) (h2 : Ten4)
    (hne : n1 ≠ n2) :
    (¬ allZero4 n2 h2 →
      buildFermOpFromInts n1 h1 (some (n2, h2)) =
        Except.error PyErr.errDimension)
    ∧ (allZero4 n2 h2 →
      isOkE (buildFermOpFromInts n1 h1 (some (n2, h2))) = true) := by
  obtain ⟨op1, hfill, hreg⟩ := fillOneBody_ok n1 h1 ⟨n1, [([], 0)]⟩ rfl
  constructor
  · intro hbad
    unfold buildFermOpFromInts
    rw [exceptBind_okv _ _ _ hfill]
    have hT : fillTwoBody n2 h2 op1 = Except.error PyErr.errDimension :=
      fillTwoBody_mismatch n1 n2 hne h2 op1 hreg hbad
    simp [hT]
  · intro hz
    unfold buildFermOpFromInts
    rw [exceptBind_okv _ _ _ hfill]
    have hT : fillTwoBody n2 h2 op1 = pure op1 :=
      fillTwoBody_allZero n2 h2 op1 hz
    simp [hT, isOkE]
    rfl

/-- Witness for the amended C8 at the concrete input `n1 = 1`, `n2 = 2` with
a nonzero two-body entry: the builder fails with the dimension error. -/
theorem c8_mismatched_dims_amended_witness :
    buildFermOpFromInts 1 zeroMat (some (2, unitTen4)) =
      Except.error PyErr.errDimension :=
  (c8_mismatched_dims_amended 1 2 zeroMat unitTen4 (by decide)).1
    (fun hall => by
      have h0 := hall 0 0 0 0 (by decide) (by decide) (by decide) (by decide)
      simp [unitTen4] at h0)

/-! ### Claim C2 -/

/-- The inactive density matrix is symmetric. -/
lemma densityMat_symm (nIn : ℕ) (C : Mat) (occ : Vec) (i j : ℕ) :
    densityMat nIn C occ i j = densityMat nIn C occ j i := by
  unfold densityMat
  refine Finset.sum_congr rfl (fun k _ => by ring)

/-- On a symmetric density, the coded Coulomb contraction
`einsum('ijkl,ji->kl')` agrees with the specified `D[i,j]` orientation. -/
lemma coulomb_densityMat (n nIn : ℕ) (eri : Ten4) (C : Mat) (occ : Vec) :
    coulombInactive n eri (densityMat nIn C occ) =
      fun k l => ∑ i ∈ Finset.range n, ∑ j ∈ Finset.range n,
        eri i j k l * densityMat nIn C occ i j := by
  funext k l
  unfold coulombInactive
  refine Finset.sum_congr rfl (fun i _ => ?_)
  refine Finset.sum_congr rfl (fun j _ => ?_)
  rw [densityMat_symm]

/-- Claim C2: with the inactive densities produced by
`_compute_inactive_density_matrix`, the inactive Fock operator of
`_compute_inactive_fock_op` satisfies
`J[k,l] = Σ_{i,j} eri[i,j,k,l]·D[i,j]`,
`K[i,l] = Σ_{j,k} eri[i,j,k,l]·D[j,k]` and
`F = hcore + J − 0.5·K` in the spin-restricted case (beta arrays absent —
the only case in which `transform` can succeed), and in the unrestricted
branch (with no separate beta core Hamiltonian, the alpha one standing in)
the spin-resolved variant combining both spins' Coulomb terms with the full,
unhalved same-spin exchange term. -/
theorem c2_inactive_fock_operator (n nIn : ℕ) (h : Mat) (eri : Ten4)
    (cin cinB : Mat) (occIn occInB : Vec) :
    computeInactiveFockOp false n h none eri (densityMat nIn cin occIn) none =
      Except.ok (fun p q => h p q +
        (∑ i ∈ Finset.range n, ∑ j ∈ Finset.range n,
          eri i j p q * densityMat nIn cin occIn i j) -
        (1/2) * ∑ j ∈ Finset.range n, ∑ k ∈ Finset.range n,
          eri p j k q * densityMat nIn cin occIn j k, none)
    ∧ computeInactiveFockOp true n h none eri (densityMat nIn cin occIn)
        (some (densityMat nIn cinB occInB)) =
      Except.ok (fun p q => h p q +
        (∑ i ∈ Finset.range n, ∑ j ∈ Finset.range n,
          eri i j p q * densityMat nIn cin occIn i j) +
        (∑ i ∈ Finset.range n, ∑ j ∈ Finset.range n,
          eri i j p q * densityMat nIn cinB occInB i j) -
        ∑ j ∈ Finset.range n, ∑ k ∈ Finset.range n,
          eri p j k q * densityMat nIn cin occIn j k,
        some (fun p q => h p q +
          (∑ i ∈ Finset.range n, ∑ j ∈ Finset.range n,
            eri i j p q * densityMat nIn cin occIn i j) +
          (∑ i ∈ Finset.range n, ∑ j ∈ Finset.range n,
            eri i j p q * densityMat nIn cinB occInB i j) -
          ∑ j ∈ Finset.range n, ∑ k ∈ Finset.range n,
            eri p j k q * densityMat nIn cinB occInB j k)) := by
  constructor
  · unfold computeInactiveFockOp
    simp only [Bool.false_eq_true, if_false]
    rw [coulomb_densityMat n nIn eri cin occIn]
    rfl
  · unfold computeInactiveFockOp hcoreFallback
    simp only [if_pos, Bind.bind, Except.bind, Option.getD]
    rw [coulomb_densityMat n nIn eri cin occIn,
      coulomb_densityMat n nIn eri cinB occInB]
    rfl

/-! ### Concrete fixtures for witnesses and counterexamples -/

/-- A matrix given by a list of rows (entries outside the range are zero). -/
def listMat (rows : List (List ℚ)) : Mat := fun i j => ((rows.getD i []).getD j 0)

/-- A vector given by a list of entries. -/
def listVec (xs : List ℚ) : Vec := fun i => xs.getD i 0

/-- A concrete 2-orbital spin-restricted closed-shell molecule (2 electrons,
identity orbital coefficients, diagonal core Hamiltonian, vanishing
electron-repulsion and dipole integrals, MO-basis fields consistent with the
AO-basis fields). -/
def mol2 : Molecule := {
  numOrbitals := some 2
  numAlpha := 1
  numBeta := 1
  multiplicity := 1
  hcore := listMat [[1, 0], [0, 2]]
  hcoreB := none
  eri := zeroTen4
  moCoeff := listMat [[1, 0], [0, 1]]
  moCoeffB := none
  moOcc := some (listVec [2, 0])
  moOccB := none
  orbitalEnergies := listVec [0, 0]
  orbitalEnergiesB := none
  coreOrbitals := []
  xDipInts := zeroMat
  yDipInts := zeroMat
  zDipInts := zeroMat
  moOneeInts := listMat [[1, 0], [0, 2]]
  moOneeIntsB := none
  moEriInts := zeroTen4
  moEriIntsBa := none
  moEriIntsBb := none
  xDipMoInts := zeroMat
  xDipMoIntsB := none
  yDipMoInts := zeroMat
  yDipMoIntsB := none
  zDipMoInts := zeroMat
  zDipMoIntsB := none
  energyShift := emptyShift
  xDipEnergyShift := emptyShift
  yDipEnergyShift := emptyShift
  zDipEnergyShift := emptyShift
  kinetic := none
  overlap := none }

/-- The total occupation vector of `mol2`. -/
def occ2 : Vec := listVec [2, 0]

lemma mem_intRange {a b x : ℤ} : x ∈ intRange a b ↔ a ≤ x ∧ x < b := by
  simp only [intRange, List.mem_map, List.mem_range]
  constructor
  · rintro ⟨i, hi, rfl⟩
    omega
  · rintro ⟨h1, h2⟩
    refine ⟨(x - a).toNat, ?_, ?_⟩ <;> omega

lemma intRange_length (a b : ℤ) : (intRange a b).length = (b - a).toNat := by
  rw [intRange, List.length_map, List.length_range]

/-- Inversion of a successful `_validate_num_electrons` call. -/
lemma validateNumElectrons_ok {x : ℚ} (h : validateNumElectrons x = Except.ok ()) :
    0 ≤ x ∧ floatMod2 x = 0 := by
  unfold validateNumElectrons at h
  split_ifs at h with h1 h2
  exact ⟨le_of_not_lt h1, not_not.mp h2⟩

/-! ### Claim C3 -/

/-- Inversion of a successful `_determine_active_space` call in the
`freeze_core` branch. -/
lemma determine_freeze_inv (m : Molecule) (c : Config) (occT : Vec) (β : Bool)
    (act inact : List ℤ) (parts : ℚ × ℚ)
    (hfc : c.freezeCore = true)
    (hdet : determineActiveSpace m c occT β = Except.ok (act, inact, parts)) :
    inact = m.coreOrbitals ++ (c.removeOrbitals.getD [])
    ∧ act = (intRange 0 (m.dim : ℤ)).filter
        (fun o => decide (o ∉ m.coreOrbitals ++ (c.removeOrbitals.getD []))) := by
  unfold determineActiveSpace at hdet
  rw [hfc] at hdet
  simp only [if_true, Bind.bind, Except.bind] at hdet
  cases hs : pySumAt m.dim occT (m.coreOrbitals ++ (c.removeOrbitals.getD [])) with
  | error e => rw [hs] at hdet; exact absurd hdet (by simp)
  | ok s =>
    rw [hs] at hdet
    simp only [pure, Except.pure, Except.ok.injEq, Prod.mk.injEq] at hdet
    obtain ⟨ha, hi, _⟩ := hdet
    exact ⟨hi.symm, ha.symm⟩

/-- Inversion of a successful `_determine_active_space` call in the sizing
(non-`freeze_core`) mode: the electron- and orbital-count validations passed
and the index lists have the around-Fermi or explicit-list shape. -/
lemma determine_nonfreeze_inv (m : Molecule) (c : Config) (occT : Vec) (β : Bool)
    (act inact : List ℤ) (parts : ℚ × ℚ)
    (hfc : c.freezeCore = false)
    (hdet : determineActiveSpace m c occT β = Except.ok (act, inact, parts)) :
    ∃ ne, c.numElectrons = some ne
      ∧ validateNumElectrons (m.numAlpha + m.numBeta - (ne : ℚ)) = Except.ok ()
      ∧ validateNumOrbitals m.dim occT c (m.numAlpha + m.numBeta - (ne : ℚ)) =
          Except.ok ()
      ∧ ((c.activeOrbitals = none
          ∧ inact = intRange 0 ⌊(m.numAlpha + m.numBeta - (ne : ℚ)) / 2⌋
          ∧ act = intRange ⌊(m.numAlpha + m.numBeta - (ne : ℚ)) / 2⌋
              (⌊(m.numAlpha + m.numBeta - (ne : ℚ)) / 2⌋ +
                c.numMolecularOrbitals.getD 0))
        ∨ (∃ lst, c.activeOrbitals = some lst ∧ act = lst
            ∧ inactiveExplicit m.dim occT ⌊(m.numAlpha + m.numBeta) / 2⌋ lst =
                Except.ok inact)) := by
  unfold determineActiveSpace at hdet
  rw [hfc] at hdet
  simp only [if_false, Bool.false_eq_true] at hdet
  cases hne : c.numElectrons with
  | none => rw [hne] at hdet; exact absurd hdet (by simp)
  | some ne =>
    rw [hne] at hdet
    refine ⟨ne, rfl, ?_⟩
    simp only [Bind.bind, Except.bind] at hdet
    cases hv1 : validateNumElectrons (m.numAlpha + m.numBeta - (ne : ℚ)) with
    | error e => rw [hv1] at hdet; exact absurd hdet (by simp)
    | ok u =>
      cases u
      rw [hv1] at hdet
      dsimp only at hdet
      refine ⟨rfl, ?_⟩
      cases hv2 : validateNumOrbitals m.dim occT c
          (m.numAlpha + m.numBeta - (ne : ℚ)) with
      | error e => rw [hv2] at hdet; exact absurd hdet (by simp)
      | ok u2 =>
        cases u2
        rw [hv2] at hdet
        dsimp only at hdet
        refine ⟨rfl, ?_⟩
        cases hao : c.activeOrbitals with
        | none =>
          rw [hao] at hdet
          dsimp only at hdet
          simp only [pure, Except.pure, Except.ok.injEq, Prod.mk.injEq] at hdet
          obtain ⟨ha, hi, _⟩ := hdet
          exact Or.inl ⟨rfl, hi.symm, ha.symm⟩
        | some lst =>
          rw [hao] at hdet
          dsimp only at hdet
          cases hie : inactiveExplicit m.dim occT
              ⌊(m.numAlpha + m.numBeta) / 2⌋ lst with
          | error e => rw [hie] at hdet; exact absurd hdet (by simp)
          | ok res =>
            rw [hie] at hdet
            dsimp only at hdet
            simp only [pure, Except.pure, Except.ok.injEq, Prod.mk.injEq] at hdet
            obtain ⟨ha, hi, _⟩ := hdet
            exact Or.inr ⟨lst, rfl, ha.symm, hi ▸ hie⟩

/-- Inversion of a successful `_validate_num_orbitals` call with an explicit
`active_orbitals` list: the requested orbital count equals the list length,
the maximal listed index is below the orbital count, and the occupations of
the listed orbitals sum to the requested electron count. -/
lemma validateNumOrbitals_explicit_ok (n : ℕ) (occT : Vec) (c : Config)
    (x : ℚ) (lst : List ℤ) (hao : c.activeOrbitals = some lst)
    (h : validateNumOrbitals n occT c x = Except.ok ()) :
    c.numMolecularOrbitals = some ((lst.length : ℤ))
    ∧ (∃ mx, lst.max? = some mx ∧ mx < (n : ℤ))
    ∧ (∃ ne, c.numElectrons = some ne ∧ pySumAt n occT lst = Except.ok (ne : ℚ)) := by
  unfold validateNumOrbitals at h
  cases hmo : c.numMolecularOrbitals with
  | none => rw [hmo] at h; exact absurd h (by simp)
  | some nmo =>
    rw [hmo, hao] at h
    dsimp only at h
    split_ifs at h with hlen
    cases hmx : lst.max? with
    | none => rw [hmx] at h; dsimp only at h; exact absurd h (by simp)
    | some mx =>
      rw [hmx] at h
      dsimp only at h
      split_ifs at h with hrange
      simp only [Bind.bind, Except.bind] at h
      cases hsum : pySumAt n occT lst with
      | error e => rw [hsum] at h; exact absurd h (by simp)
      | ok s =>
        rw [hsum] at h
        cases hne : c.numElectrons with
        | none => rw [hne] at h; dsimp only at h; exact absurd h (by simp)
        | some ne =>
          rw [hne] at h
          dsimp only at h
          split_ifs at h with hveq
          refine ⟨by rw [not_not.mp hlen], ⟨mx, rfl, lt_of_not_le hrange⟩,
            ⟨ne, rfl, ?_⟩⟩
          rw [not_not.mp hveq]

/-- Elements accumulated by the explicit-branch inactive-list fold are never
members of the active list. -/
lemma inactiveExplicit_not_mem_aux (n : ℕ) (occT : Vec) (act : List ℤ) :
    ∀ (L : List ℤ) (acc res : List ℤ),
      (∀ x ∈ acc, x ∉ act) →
      L.foldlM (fun acc2 o => do
        if o ∈ act then pure acc2
        else
          let x ← pyGetV n occT o
          if 0 < x then pure (acc2 ++ [o]) else pure acc2) acc = Except.ok res →
      ∀ x ∈ res, x ∉ act := by
  intro L
  induction L with
  | nil =>
    intro acc res hacc hfold
    rw [List.foldlM_nil] at hfold
    cases hfold
    exact hacc
  | cons a t ih =>
    intro acc res hacc hfold
    rw [List.foldlM_cons] at hfold
    by_cases hmem : a ∈ act
    · simp only [hmem, if_pos] at hfold
      simp only [Bind.bind, Except.bind] at hfold
      exact ih acc res hacc hfold
    · simp only [hmem, if_neg, Bind.bind, Except.bind] at hfold
      cases hg : pyGetV n occT a with
      | error e => rw [hg] at hfold; simp at hfold
      | ok v =>
        rw [hg] at hfold
        dsimp only at hfold
        by_cases hv : 0 < v
        · simp only [hv, if_pos] at hfold
          refine ih _ res ?_ hfold
          intro x hx
          rcases List.mem_append.mp hx with h | h
          · exact hacc x h
          · rw [List.mem_singleton.mp h]; exact hmem
        · simp only [hv, if_neg] at hfold
          exact ih acc res hacc hfold

/-- Elements of the explicit-branch inactive list are not active. -/
lemma inactiveExplicit_not_mem (n : ℕ) (occT : Vec) (bound : ℤ)
    (act res : List ℤ) (h : inactiveExplicit n occT bound act = Except.ok res) :
    ∀ x ∈ res, x ∉ act := by
  unfold inactiveExplicit at h
  exact inactiveExplicit_not_mem_aux n occT act _ [] res (by simp) h

/-- Claim C3 counterexample: on a 2-orbital molecule, the around-Fermi mode
with `num_electrons = 2, num_molecular_orbitals = 1` succeeds with active set
`[0]` and empty inactive set, whose union omits orbital `1` of the full range
`[0, 2)` — the two sets do not cover the full orbital range. -/
theorem c3_partition_counterexample :
    (determineActiveSpace mol2
      { numElectrons := some 2, numMolecularOrbitals := some 1, numAlpha := none,
        activeOrbitals := none, freezeCore := false, removeOrbitals := none }
      occ2 false).toOption.map (fun t => (t.1, t.2.1)) = some ([0], [])
    ∧ (1 : ℤ) ∉ ([0] : List ℤ) ∧ (1 : ℤ) ∉ ([] : List ℤ)
    ∧ 0 ≤ (1 : ℤ) ∧ (1 : ℤ) < 2 := by
  refine ⟨?_, by decide, by decide, by decide, by decide⟩
  simp only [determineActiveSpace, validateNumElectrons, validateNumOrbitals,
    floatMod2, mol2, Molecule.dim, Option.getD, Bind.bind, Except.bind, intRange]
  norm_num
  exact ⟨1, 1, rfl⟩

/-- Claim C3 (amended): for every successful `_determine_active_space` call,
the active and inactive index sets are disjoint; in the around-Fermi mode the
active set's length equals the requested count (clamped at zero) and the
union of the two sets is the contiguous block
`[0, ⌊inactive-electrons / 2⌋ + requested-count)`, which equals the full
orbital range only when that bound equals the orbital count; in the explicit
mode the active list is exactly the given list, whose validated length equals
the requested count; in the `freeze_core` mode the union of the two sets
covers the full orbital range. -/
theorem c3_partition_amended (m : Molecule) (c : Config) (occT : Vec) (β : Bool)
    (act inact : List ℤ) (parts : ℚ × ℚ)
    (hdet : determineActiveSpace m c occT β = Except.ok (act, inact, parts)) :
    (∀ x ∈ act, x ∉ inact)
    ∧ (c.freezeCore = false → c.activeOrbitals = none →
        (act.length : ℤ) = max (c.numMolecularOrbitals.getD 0) 0
        ∧ ∀ x : ℤ, (x ∈ inact ∨ x ∈ act) ↔
            (0 ≤ x ∧ x <
              ⌊(m.numAlpha + m.numBeta - ((c.numElectrons.getD 0 : ℤ) : ℚ)) / 2⌋
                + max (c.numMolecularOrbitals.getD 0) 0))
    ∧ (∀ lst, c.freezeCore = false → c.activeOrbitals = some lst →
        act = lst ∧ c.numMolecularOrbitals = some ((act.length : ℤ)))
    ∧ (c.freezeCore = true →
        ∀ x : ℤ, 0 ≤ x → x < (m.dim : ℤ) → x ∈ act ∨ x ∈ inact) := by
  by_cases hfc : c.freezeCore
  · obtain ⟨hinact, hact⟩ := determine_freeze_inv m c occT β act inact parts hfc hdet
    refine ⟨?_, fun h => absurd hfc (by rw [h]; exact Bool.false_ne_true),
      fun lst h => absurd hfc (by rw [h]; exact Bool.false_ne_true), fun _ => ?_⟩
    · intro x hx
      rw [hact] at hx
      rw [List.mem_filter] at hx
      rw [hinact]
      exact of_decide_eq_true hx.2
    · intro x h0 hn
      by_cases hxin : x ∈ m.coreOrbitals ++ (c.removeOrbitals.getD [])
      · exact Or.inr (hinact ▸ hxin)
      · refine Or.inl ?_
        rw [hact, List.mem_filter]
        exact ⟨mem_intRange.mpr ⟨h0, hn⟩, decide_eq_true hxin⟩
  · have hfc2 : c.freezeCore = false := Bool.not_eq_true _ ▸ (by simpa using hfc)
    obtain ⟨ne, hne, hv1, hv2, hbr⟩ :=
      determine_nonfreeze_inv m c occT β act inact parts hfc2 hdet
    obtain ⟨hge, -⟩ := validateNumElectrons_ok hv1
    rcases hbr with ⟨hao, hinact, hact⟩ | ⟨lst, hao, hact, hie⟩
    · have hnin : 0 ≤ ⌊(m.numAlpha + m.numBeta - (ne : ℚ)) / 2⌋ :=
        Int.floor_nonneg.mpr (by positivity)
      refine ⟨?_, fun _ _ => ⟨?_, ?_⟩, fun lst _ h => absurd (hao ▸ h) (by simp),
        fun h => absurd h (by rw [hfc2]; exact Bool.false_ne_true)⟩
      · intro x hx hx2
        rw [hact, mem_intRange] at hx
        rw [hinact, mem_intRange] at hx2
        omega
      · rw [hact, intRange_length]
        omega
      · intro x
        rw [hne]
        simp only [Option.getD_some]
        rw [hact, hinact, mem_intRange, mem_intRange]
        omega
    · refine ⟨?_, fun _ h => absurd (hao ▸ h) (by simp),
        fun lst2 _ h => ?_, fun h => absurd h (by rw [hfc2]; exact Bool.false_ne_true)⟩
      · intro x hx hx2
        exact inactiveExplicit_not_mem _ _ _ _ _ hie x hx2 (hact ▸ hx)
      · have hl : lst2 = lst := by rw [hao] at h; exact (Option.some.injEq .. ▸ h).symm
        subst hl
        obtain ⟨hmo, -, -⟩ := validateNumOrbitals_explicit_ok m.dim occT c
          (m.numAlpha + m.numBeta - (ne : ℚ)) lst2 hao hv2
        exact ⟨hact, by rw [hmo, hact]⟩


/-- Witness for the amended C3: the around-Fermi mode on the concrete
2-orbital molecule with the full active space, instantiating the
disjointness clause at orbital 0. -/
theorem c3_partition_amended_witness :
    determineActiveSpace mol2
      { numElectrons := some 2, numMolecularOrbitals := some 2, numAlpha := none,
        activeOrbitals := none, freezeCore := false, removeOrbitals := none }
      occ2 false = Except.ok ([0, 1], [], (1, 1))
    ∧ (0 : ℤ) ∉ ([] : List ℤ) := by
  have hdet : determineActiveSpace mol2
      { numElectrons := some 2, numMolecularOrbitals := some 2, numAlpha := none,
        activeOrbitals := none, freezeCore := false, removeOrbitals := none }
      occ2 false = Except.ok ([0, 1], [], (1, 1)) := by
    simp only [determineActiveSpace, validateNumElectrons, validateNumOrbitals,
      floatMod2, mol2, Molecule.dim, Option.getD, Bind.bind, Except.bind,
      intRange]
    norm_num
    rfl
  exact ⟨hdet, (c3_partition_amended mol2 _ occ2 false _ _ _ hdet).1 0 (by decide)⟩

/-! ### Transform-level bridge lemmas -/

lemma transform_err_of_prep (m : Molecule) (c : Config) (e : PyErr)
    (h : transformPrep m c = Except.error e) : transform m c = Except.error e := by
  unfold transform transformTracked
  rw [h]

lemma transform_of_prep_ok (m : Molecule) (c : Config) (d : StageData)
    (h : transformPrep m c = Except.ok d) :
    transform m c = transformBody m c d := by
  unfold transform transformTracked
  rw [h]
  dsimp only
  cases hb : transformBody m c d <;> rfl

lemma prep_err_of_determine (m : Molecule) (c : Config) (occT : Vec) (e : PyErr)
    (hcfg : checkConfiguration c = true)
    (hocc : totalOccupation m.moCoeffB.isSome
      (extractMoOccupationVector m m.moCoeffB.isSome) = Except.ok occT)
    (hdet : determineActiveSpace m c occT m.moCoeffB.isSome = Except.error e) :
    transformPrep m c = Except.error e := by
  unfold transformPrep
  rw [hcfg]
  simp only [Bool.true_eq_false, if_false]
  rw [hocc]
  dsimp only
  rw [hdet]

lemma determine_err_of_validateElectrons (m : Molecule) (c : Config)
    (occT : Vec) (β : Bool) (ne : ℤ) (e : PyErr)
    (hfc : c.freezeCore = false) (hne : c.numElectrons = some ne)
    (hv : validateNumElectrons (m.numAlpha + m.numBeta - (ne : ℚ)) =
      Except.error e) :
    determineActiveSpace m c occT β = Except.error e := by
  unfold determineActiveSpace
  rw [hfc]
  simp only [Bool.false_eq_true, if_false]
  rw [hne]
  dsimp only
  simp only [Bind.bind, Except.bind]
  rw [hv]


/-- A concrete 1-orbital spin-restricted closed-shell molecule (2 electrons,
empty core-orbital list). -/
def mol1 : Molecule := {
  numOrbitals := some 1
  numAlpha := 1
  numBeta := 1
  multiplicity := 1
  hcore := listMat [[5]]
  hcoreB := none
  eri := zeroTen4
  moCoeff := listMat [[1]]
  moCoeffB := none
  moOcc := some (listVec [2])
  moOccB := none
  orbitalEnergies := listVec [0]
  orbitalEnergiesB := none
  coreOrbitals := []
  xDipInts := zeroMat
  yDipInts := zeroMat
  zDipInts := zeroMat
  moOneeInts := listMat [[5]]
  moOneeIntsB := none
  moEriInts := zeroTen4
  moEriIntsBa := none
  moEriIntsBb := none
  xDipMoInts := zeroMat
  xDipMoIntsB := none
  yDipMoInts := zeroMat
  yDipMoIntsB := none
  zDipMoInts := zeroMat
  zDipMoIntsB := none
  energyShift := emptyShift
  xDipEnergyShift := emptyShift
  yDipEnergyShift := emptyShift
  zDipEnergyShift := emptyShift
  kinetic := none
  overlap := none }


/-! ### Claim C6 -/

/-- Claim C6 counterexample: with `freeze_core=True` and `num_electrons=1` on
the 2-electron molecule `mol1`, the derived inactive-electron count
`2 - 1 = 1` is odd, yet `transform` succeeds — the electron-count validation
never runs in the `freeze_core` branch. -/
theorem c6_odd_inactive_counterexample :
    floatMod2 (mol1.numAlpha + mol1.numBeta - ((1 : ℤ) : ℚ)) ≠ 0
    ∧ isOkE (transform mol1
      { numElectrons := some 1, numMolecularOrbitals := none, numAlpha := none,
        activeOrbitals := none, freezeCore := true, removeOrbitals := none }) =
        true := by
  constructor
  · unfold floatMod2 mol1
    norm_num
  · rfl

/-- Claim C6 (amended): in the sizing mode (`freeze_core` disabled, integer
`num_electrons`, occupation stage succeeding), the derived inactive-electron
count `total − num_electrons` must be non-negative and even: a negative count
makes `transform` raise the more-electrons-than-available error, and an odd
non-negative count the even-count error, in either case without producing a
reduced molecule; under `freeze_core` this validation is skipped. -/
theorem c6_inactive_electron_validation_amended (m : Molecule) (c : Config) (occT : Vec) (ne : ℤ)
    (hfc : c.freezeCore = false) (hcfg : checkConfiguration c = true)
    (hne : c.numElectrons = some ne)
    (hocc : totalOccupation m.moCoeffB.isSome
      (extractMoOccupationVector m m.moCoeffB.isSome) = Except.ok occT) :
    (m.numAlpha + m.numBeta - (ne : ℚ) < 0 →
      transform m c = Except.error PyErr.errMoreElectrons)
    ∧ (0 ≤ m.numAlpha + m.numBeta - (ne : ℚ) →
        floatMod2 (m.numAlpha + m.numBeta - (ne : ℚ)) ≠ 0 →
        transform m c = Except.error PyErr.errOddInactive) := by
  constructor
  · intro hneg
    refine transform_err_of_prep m c _ (prep_err_of_determine m c occT _ hcfg hocc
      (determine_err_of_validateElectrons m c occT _ ne _ hfc hne ?_))
    unfold validateNumElectrons
    rw [if_pos hneg]
  · intro hge hodd
    refine transform_err_of_prep m c _ (prep_err_of_determine m c occT _ hcfg hocc
      (determine_err_of_validateElectrons m c occT _ ne _ hfc hne ?_))
    unfold validateNumElectrons
    rw [if_neg (not_lt.mpr hge), if_pos hodd]

/-- Witness for the amended C6 at `mol2` with `num_electrons = 1` (odd
inactive count 1). -/
theorem c6_inactive_electron_validation_amended_witness :
    transform mol2
      { numElectrons := some 1, numMolecularOrbitals := some 2, numAlpha := none,
        activeOrbitals := none, freezeCore := false, removeOrbitals := none } =
      Except.error PyErr.errOddInactive := by
  have h := c6_inactive_electron_validation_amended mol2
    { numElectrons := some 1, numMolecularOrbitals := some 2, numAlpha := none,
      activeOrbitals := none, freezeCore := false, removeOrbitals := none }
    occ2 1 rfl rfl rfl rfl
  exact h.2 (by unfold mol2; norm_num) (by unfold mol2 floatMod2; norm_num)

/-! ### Error characterization of the pipeline stages -/
lemma foldlM_err_subset {α β : Type} (f : β → α → Except PyErr β)
    (P : PyErr → Prop) :
    ∀ (L : List α),
      (∀ b x, x ∈ L → ∀ e, f b x = Except.error e → P e) →
      ∀ b e, L.foldlM f b = Except.error e → P e := by
  intro L
  induction L with
  | nil =>
    intro _ b e h
    rw [List.foldlM_nil] at h
    exact absurd h (by simp [pure, Except.pure])
  | cons a t ih =>
    intro hstep b e h
    rw [List.foldlM_cons] at h
    cases hf : f b a with
    | error e2 =>
      rw [hf] at h
      simp only [Bind.bind, Except.bind] at h
      cases h
      exact hstep b a (List.mem_cons_self a t) e hf
    | ok b2 =>
      rw [hf] at h
      simp only [Bind.bind, Except.bind] at h
      exact ih (fun b3 x hx => hstep b3 x (List.mem_cons_of_mem a hx)) b2 e h

lemma pyGetV_err {n : ℕ} {v : Vec} {i : ℤ} {e : PyErr}
    (h : pyGetV n v i = Except.error e) : e = PyErr.errIndex := by
  unfold pyGetV at h
  split_ifs at h <;> cases h <;> rfl

lemma pySumAt_err {n : ℕ} {v : Vec} {idxs : List ℤ} {e : PyErr}
    (h : pySumAt n v idxs = Except.error e) : e = PyErr.errIndex := by
  unfold pySumAt at h
  refine foldlM_err_subset _ (fun e2 => e2 = PyErr.errIndex) idxs ?_ 0 e h
  intro b x _ e2 hb
  simp only [Bind.bind, Except.bind] at hb
  cases hg : pyGetV n v x with
  | error e3 =>
    rw [hg] at hb
    cases hb
    exact pyGetV_err hg
  | ok q => rw [hg] at hb; cases hb

lemma selectCols_err {n : ℕ} {M : Mat} {idxs : List ℤ} {e : PyErr}
    (h : selectCols n M idxs = Except.error e) : e = PyErr.errIndex := by
  unfold selectCols at h
  split_ifs at h <;> cases h <;> rfl

lemma selectVec_err {n : ℕ} {v : Vec} {idxs : List ℤ} {e : PyErr}
    (h : selectVec n v idxs = Except.error e) : e = PyErr.errIndex := by
  unfold selectVec at h
  split_ifs at h <;> cases h <;> rfl

lemma totalOccupation_err {β : Bool} {occF : Vec × Option Vec} {e : PyErr}
    (h : totalOccupation β occF = Except.error e) : e = PyErr.errType := by
  unfold totalOccupation at h
  split_ifs at h
  cases ho : occF.2
  · rw [ho] at h; cases h; rfl
  · rw [ho] at h; cases h

lemma determine_freeze_err (m : Molecule) (c : Config) (occT : Vec) (β : Bool)
    {e : PyErr} (hfc : c.freezeCore = true)
    (h : determineActiveSpace m c occT β = Except.error e) :
    e = PyErr.errIndex := by
  unfold determineActiveSpace at h
  rw [hfc] at h
  simp only [if_true, Bind.bind, Except.bind] at h
  cases hs : pySumAt m.dim occT (m.coreOrbitals ++ c.removeOrbitals.getD []) with
  | error e2 =>
    rw [hs] at h
    cases h
    exact pySumAt_err hs
  | ok s => rw [hs] at h; cases h

lemma exceptMapSome_err {α : Type} {x : Except PyErr α} {e : PyErr}
    (h : x.map some = Except.error e) : x = Except.error e := by
  cases x with
  | error e2 => cases h; rfl
  | ok a => cases h

lemma selColsOpt_err {n : ℕ} {β : Bool} {mo : Option Mat} {idxs : List ℤ}
    {e : PyErr} (h : selColsOpt n β mo idxs = Except.error e) :
    e = PyErr.errIndex := by
  unfold selColsOpt at h
  split_ifs at h
  · exact selectCols_err (exceptMapSome_err h)
  · cases h

lemma selVecOpt_err {n : ℕ} {β : Bool} {vo : Option Vec} {idxs : List ℤ}
    {e : PyErr} (h : selVecOpt n β vo idxs = Except.error e) :
    e = PyErr.errIndex := by
  unfold selVecOpt at h
  split_ifs at h
  · exact selectVec_err (exceptMapSome_err h)
  · cases h

lemma sliceArrays_err {n : ℕ} {β : Bool} {m : Molecule}
    {occF : Vec × Option Vec} {act inact : List ℤ} {e : PyErr}
    (h : sliceArrays n β m occF act inact = Except.error e) :
    e = PyErr.errIndex := by
  unfold sliceArrays at h
  simp only [Bind.bind, Except.bind] at h
  cases h1 : selectCols n m.moCoeff inact with
  | error e1 => rw [h1] at h; cases h; exact selectCols_err h1
  | ok c1 =>
  rw [h1] at h
  dsimp only at h
  cases h2 : selColsOpt n β m.moCoeffB inact with
  | error e2 => rw [h2] at h; cases h; exact selColsOpt_err h2
  | ok c2 =>
  rw [h2] at h
  dsimp only at h
  cases h3 : selectCols n m.moCoeff act with
  | error e3 => rw [h3] at h; cases h; exact selectCols_err h3
  | ok c3 =>
  rw [h3] at h
  dsimp only at h
  cases h4 : selColsOpt n β m.moCoeffB act with
  | error e4 => rw [h4] at h; cases h; exact selColsOpt_err h4
  | ok c4 =>
  rw [h4] at h
  dsimp only at h
  cases h5 : selectVec n occF.1 inact with
  | error e5 => rw [h5] at h; cases h; exact selectVec_err h5
  | ok c5 =>
  rw [h5] at h
  dsimp only at h
  cases h6 : selVecOpt n β occF.2 inact with
  | error e6 => rw [h6] at h; cases h; exact selVecOpt_err h6
  | ok c6 => rw [h6] at h; cases h

lemma selectOrbEnergiesB_err {n : ℕ} {β : Bool} {m : Molecule} {act : List ℤ}
    {e : PyErr} (h : selectOrbEnergiesB n β m act = Except.error e) :
    e = PyErr.errType ∨ e = PyErr.errIndex := by
  unfold selectOrbEnergiesB at h
  split_ifs at h
  · cases ho : m.orbitalEnergiesB with
    | none => rw [ho] at h; cases h; exact Or.inl rfl
    | some v =>
      rw [ho] at h
      dsimp only at h
      exact Or.inr (selectVec_err (exceptMapSome_err h))

lemma hcoreFallback_err {n : ℕ} {hb : Option Mat} {hm : Mat} {e : PyErr}
    (h : hcoreFallback n hb hm = Except.error e) : e = PyErr.errValue := by
  unfold hcoreFallback at h
  cases hb with
  | none => cases h
  | some M =>
    dsimp only at h
    by_cases h2 : 2 ≤ n
    · rw [if_pos h2] at h; cases h; rfl
    · rw [if_neg h2] at h
      by_cases h3 : n = 1 ∧ M 0 0 ≠ 0
      · rw [if_pos h3] at h; cases h
      · rw [if_neg h3] at h; cases h

lemma computeInactiveFockOp_err {β : Bool} {n : ℕ} {hm : Mat} {hb : Option Mat}
    {eri : Ten4} {Da : Mat} {Db : Option Mat} {e : PyErr}
    (h : computeInactiveFockOp β n hm hb eri Da Db = Except.error e) :
    e = PyErr.errValue := by
  unfold computeInactiveFockOp at h
  split_ifs at h
  · simp only [Bind.bind, Except.bind] at h
    cases hf : hcoreFallback n hb hm with
    | error e2 => rw [hf] at h; cases h; exact hcoreFallback_err hf
    | ok M => rw [hf] at h; cases h
  · cases h

lemma computeInactiveEnergy_err {β : Bool} {n nIn : ℕ} {hm : Mat}
    {hb : Option Mat} {Fa : Mat} {Fb : Option Mat} {Da : Mat} {Db : Option Mat}
    {e : PyErr}
    (h : computeInactiveEnergy β n nIn hm hb Fa Fb Da Db = Except.error e) :
    e = PyErr.errType := by
  unfold computeInactiveEnergy at h
  by_cases h1 : β = false ∧ 0 < n * nIn
  · rw [if_pos h1] at h; cases h
  · rw [if_neg h1] at h
    by_cases hcond : β = true ∧ 0 < n * nIn
    · rw [if_pos hcond] at h
      cases hhb : hb with
      | none => rw [hhb] at h; dsimp only at h; cases h; rfl
      | some M => rw [hhb] at h; dsimp only at h; cases h
    · rw [if_neg hcond] at h; cases h

lemma reduceToActiveSpace_err {β : Bool} {n nIn : ℕ} {CaA : Mat}
    {CaB : Option Mat} {Da : Mat} {Db : Option Mat} {ao1 : Mat × Option Mat}
    {ao2 : Option Ten4} {e : PyErr}
    (h : reduceToActiveSpace β n nIn CaA CaB Da Db ao1 ao2 = Except.error e) :
    e = PyErr.errValue ∨ e = PyErr.errType := by
  unfold reduceToActiveSpace at h
  simp only [Bind.bind, Except.bind] at h
  cases ao2 with
  | none =>
    simp only [pure, Except.pure] at h
    cases hsh : computeInactiveEnergy β n nIn ao1.1 ao1.2 ao1.1 ao1.2 Da Db with
    | error e2 =>
      rw [hsh] at h
      cases h
      exact Or.inr (computeInactiveEnergy_err hsh)
    | ok sh => rw [hsh] at h; cases h
  | some er =>
    dsimp only at h
    cases hf : computeInactiveFockOp β n ao1.1 ao1.2 er Da Db with
    | error e1 =>
      rw [hf] at h
      cases h
      exact Or.inl (computeInactiveFockOp_err hf)
    | ok op =>
      rw [hf] at h
      dsimp only at h
      cases hsh : computeInactiveEnergy β n nIn ao1.1 ao1.2 op.1 op.2 Da Db with
      | error e2 =>
        rw [hsh] at h
        cases h
        exact Or.inr (computeInactiveEnergy_err hsh)
      | ok sh => rw [hsh] at h; cases h

lemma dipoleAo1_err {β : Bool} {d : Mat} {e : PyErr}
    (h : dipoleAo1 β d = Except.error e) : e = PyErr.errType := by
  unfold dipoleAo1 at h
  split_ifs at h <;> cases h; rfl

lemma checkConfiguration_freeze {c : Config} (hfc : c.freezeCore = true) :
    checkConfiguration c = true := by
  unfold checkConfiguration
  rw [hfc]
  rfl

lemma transform_err_inv {m : Molecule} {c : Config} {e : PyErr}
    (h : transform m c = Except.error e) :
    transformPrep m c = Except.error e
    ∨ ∃ d, transformPrep m c = Except.ok d
        ∧ transformBody m c d = Except.error e := by
  unfold transform transformTracked at h
  cases hp : transformPrep m c with
  | error e2 => rw [hp] at h; dsimp only at h; cases h; exact Or.inl rfl
  | ok d =>
    rw [hp] at h
    dsimp only at h
    cases hb : transformBody m c d with
    | error e3 => rw [hb] at h; dsimp only at h; cases h; exact Or.inr ⟨d, rfl, hb⟩
    | ok r => rw [hb] at h; dsimp only at h; cases h

lemma transformPrep_err_cases {m : Molecule} {c : Config} {e : PyErr}
    (h : transformPrep m c = Except.error e) :
    (e = PyErr.errInsufficientConfig ∧ checkConfiguration c = false)
    ∨ e = PyErr.errType ∨ e = PyErr.errIndex
    ∨ ∃ occT, totalOccupation m.moCoeffB.isSome
          (extractMoOccupationVector m m.moCoeffB.isSome) = Except.ok occT
        ∧ determineActiveSpace m c occT m.moCoeffB.isSome = Except.error e := by
  unfold transformPrep at h
  by_cases hcfg : checkConfiguration c = false
  · rw [if_pos hcfg] at h
    cases h
    exact Or.inl ⟨rfl, hcfg⟩
  · rw [if_neg hcfg] at h
    dsimp only at h
    cases hocc : totalOccupation m.moCoeffB.isSome
        (extractMoOccupationVector m m.moCoeffB.isSome) with
    | error e1 =>
      rw [hocc] at h
      cases h
      exact Or.inr (Or.inl (totalOccupation_err hocc))
    | ok occT =>
      rw [hocc] at h
      dsimp only at h
      cases hdet : determineActiveSpace m c occT m.moCoeffB.isSome with
      | error e2 =>
        rw [hdet] at h
        cases h
        exact Or.inr (Or.inr (Or.inr ⟨occT, rfl, hdet⟩))
      | ok trip =>
        rw [hdet] at h
        obtain ⟨act, inact, parts⟩ := trip
        dsimp only at h
        cases hsl : sliceArrays m.dim m.moCoeffB.isSome m
            (extractMoOccupationVector m m.moCoeffB.isSome) act inact with
        | error e3 =>
          rw [hsl] at h
          cases h
          exact Or.inr (Or.inr (Or.inl (sliceArrays_err hsl)))
        | ok sl =>
          rw [hsl] at h
          dsimp only at h
          cases hoe : selectVec m.dim m.orbitalEnergies act with
          | error e4 =>
            rw [hoe] at h
            cases h
            exact Or.inr (Or.inr (Or.inl (selectVec_err hoe)))
          | ok oeA =>
            rw [hoe] at h
            dsimp only at h
            cases hob : selectOrbEnergiesB m.dim m.moCoeffB.isSome m act with
            | error e5 =>
              rw [hob] at h
              cases h
              rcases selectOrbEnergiesB_err hob with h1 | h1
              · exact Or.inr (Or.inl h1)
              · exact Or.inr (Or.inr (Or.inl h1))
            | ok oeB => rw [hob] at h; cases h

lemma transformBody_err_cases {m : Molecule} {c : Config} {d : StageData}
    {e : PyErr} (h : transformBody m c d = Except.error e) :
    e = PyErr.errValue ∨ e = PyErr.errType := by
  unfold transformBody at h
  dsimp only at h
  cases h1 : reduceToActiveSpace d.beta d.n d.inact.length d.sl.CactA d.sl.CactB
      (densityMat d.inact.length d.sl.CinA d.sl.occInA)
      (if d.beta = true then
        some (densityMat d.inact.length (d.sl.CinB.getD zeroMat)
          (d.sl.occInB.getD fun _ => 0))
      else none)
      (m.hcore, if d.beta = true then m.hcoreB else none) (some m.eri) with
  | error e1 => rw [h1] at h; cases h; exact reduceToActiveSpace_err h1
  | ok outE =>
  rw [h1] at h
  dsimp only at h
  cases h2 : dipoleAo1 d.beta (dipAo m Axis.x) with
  | error e2 => rw [h2] at h; cases h; exact Or.inr (dipoleAo1_err h2)
  | ok ao1x =>
  rw [h2] at h
  dsimp only at h
  cases h3 : reduceToActiveSpace d.beta d.n d.inact.length d.sl.CactA d.sl.CactB
      (densityMat d.inact.length d.sl.CinA d.sl.occInA)
      (if d.beta = true then
        some (densityMat d.inact.length (d.sl.CinB.getD zeroMat)
          (d.sl.occInB.getD fun _ => 0))
      else none) ao1x none with
  | error e3 => rw [h3] at h; cases h; exact reduceToActiveSpace_err h3
  | ok outX =>
  rw [h3] at h
  dsimp only at h
  cases h4 : dipoleAo1 d.beta (dipAo m Axis.y) with
  | error e4 => rw [h4] at h; cases h; exact Or.inr (dipoleAo1_err h4)
  | ok ao1y =>
  rw [h4] at h
  dsimp only at h
  cases h5 : reduceToActiveSpace d.beta d.n d.inact.length d.sl.CactA d.sl.CactB
      (densityMat d.inact.length d.sl.CinA d.sl.occInA)
      (if d.beta = true then
        some (densityMat d.inact.length (d.sl.CinB.getD zeroMat)
          (d.sl.occInB.getD fun _ => 0))
      else none) ao1y none with
  | error e5 => rw [h5] at h; cases h; exact reduceToActiveSpace_err h5
  | ok outY =>
  rw [h5] at h
  dsimp only at h
  cases h6 : dipoleAo1 d.beta (dipAo m Axis.z) with
  | error e6 => rw [h6] at h; cases h; exact Or.inr (dipoleAo1_err h6)
  | ok ao1z =>
  rw [h6] at h
  dsimp only at h
  cases h7 : reduceToActiveSpace d.beta d.n d.inact.length d.sl.CactA d.sl.CactB
      (densityMat d.inact.length d.sl.CinA d.sl.occInA)
      (if d.beta = true then
        some (densityMat d.inact.length (d.sl.CinB.getD zeroMat)
          (d.sl.occInB.getD fun _ => 0))
      else none) ao1z none with
  | error e7 => rw [h7] at h; cases h; exact reduceToActiveSpace_err h7
  | ok outZ => rw [h7] at h; cases h

/-! ### The spin-restricted closed form of the reduction phase -/

def restrictedFock (n : ℕ) (h : Mat) (er : Ten4) (D : Mat) : Mat :=
  fun i j => h i j + coulombInactive n er D i j -
    (1/2) * exchangeInactive n er D i j

def restrictedShift (n nIn : ℕ) (h F : Mat) (D : Mat) : ℚ :=
  if 0 < n * nIn then (1/2) * traceContract n D (fun i j => h i j + F i j)
  else 0

def reduceOutR (n nIn : ℕ) (Ca : Mat) (D : Mat) (ao1 : Mat × Option Mat)
    (ao2 : Option Ten4) : ReduceOut :=
  let op : Mat × Option Mat := match ao2 with
    | none => ao1
    | some er => (restrictedFock n ao1.1 er D, none)
  ⟨op, restrictedShift n nIn ao1.1 op.1 D, (activeOneBody n Ca op.1, none),
    ao2.map (fun er => (activeTwoBody n Ca Ca Ca Ca er, none, none))⟩

lemma reduce_restricted (n nIn : ℕ) (Ca : Mat) (Cb : Option Mat) (D : Mat)
    (Db : Option Mat) (ao1 : Mat × Option Mat) (ao2 : Option Ten4) :
    reduceToActiveSpace false n nIn Ca Cb D Db ao1 ao2 =
      Except.ok (reduceOutR n nIn Ca D ao1 ao2) := by
  unfold reduceToActiveSpace reduceOutR computeInactiveFockOp
    computeInactiveEnergy restrictedFock restrictedShift
  by_cases hnn : 0 < n * nIn
  · cases ao2 <;>
      simp [hnn, Bind.bind, Except.bind, pure, Except.pure, ReduceOut.mk.injEq]
  · cases ao2 <;>
      simp [hnn, Bind.bind, Except.bind, pure, Except.pure, ReduceOut.mk.injEq]

def bodyR (m : Molecule) (c : Config) (d : StageData) : Molecule :=
  let nIn := d.inact.length
  let da := densityMat nIn d.sl.CinA d.sl.occInA
  let red0 := { m with
    numOrbitals := c.numMolecularOrbitals,
    numAlpha := d.parts.1,
    numBeta := d.parts.2,
    moCoeff := d.sl.CactA,
    moCoeffB := d.sl.CactB,
    orbitalEnergies := d.oeA,
    orbitalEnergiesB :=
      match d.oeB with
      | some v => some v
      | none => m.orbitalEnergiesB,
    kinetic := none,
    overlap := none }
  let red1 := storeElectronic false red0
    (reduceOutR d.n nIn d.sl.CactA da (m.hcore, none) (some m.eri))
  let red2 := storeDipole red1 Axis.x
    (reduceOutR d.n nIn d.sl.CactA da (m.xDipInts, none) none)
  let red3 := storeDipole red2 Axis.y
    (reduceOutR d.n nIn d.sl.CactA da (m.yDipInts, none) none)
  storeDipole red3 Axis.z
    (reduceOutR d.n nIn d.sl.CactA da (m.zDipInts, none) none)

lemma transformBody_restricted (m : Molecule) (c : Config) (d : StageData)
    (hβ : d.beta = false) : transformBody m c d = Except.ok (bodyR m c d) := by
  unfold transformBody bodyR
  rw [hβ]
  simp only [Bool.false_eq_true, if_false, dipoleAo1, dipAo,
    reduce_restricted, Bind.bind, Except.bind]

lemma transformBody_beta_ne_ok (m : Molecule) (c : Config) (d : StageData)
    (hβ : d.beta = true) (r : Molecule) :
    transformBody m c d ≠ Except.ok r := by
  intro h
  unfold transformBody at h
  dsimp only at h
  rw [hβ] at h
  cases h1 : reduceToActiveSpace true d.n d.inact.length d.sl.CactA d.sl.CactB
      (densityMat d.inact.length d.sl.CinA d.sl.occInA)
      (if true = true then
        some (densityMat d.inact.length (d.sl.CinB.getD zeroMat)
          (d.sl.occInB.getD fun _ => 0))
      else none)
      (m.hcore, if true = true then m.hcoreB else none) (some m.eri) with
  | error e1 => rw [h1] at h; cases h
  | ok outE =>
    rw [h1] at h
    dsimp only at h
    have : dipoleAo1 true (dipAo m Axis.x) = Except.error PyErr.errType := rfl
    rw [this] at h
    cases h

lemma transformPrep_ok_inv {m : Molecule} {c : Config} {d : StageData}
    (h : transformPrep m c = Except.ok d) :
    checkConfiguration c = true
    ∧ d.n = m.dim ∧ d.beta = m.moCoeffB.isSome
    ∧ totalOccupation m.moCoeffB.isSome
        (extractMoOccupationVector m m.moCoeffB.isSome) = Except.ok d.occT
    ∧ determineActiveSpace m c d.occT m.moCoeffB.isSome =
        Except.ok (d.act, d.inact, d.parts)
    ∧ sliceArrays m.dim m.moCoeffB.isSome m
        (extractMoOccupationVector m m.moCoeffB.isSome) d.act d.inact =
          Except.ok d.sl
    ∧ selectVec m.dim m.orbitalEnergies d.act = Except.ok d.oeA
    ∧ selectOrbEnergiesB m.dim m.moCoeffB.isSome m d.act = Except.ok d.oeB := by
  unfold transformPrep at h
  by_cases hcfg : checkConfiguration c = false
  · rw [if_pos hcfg] at h; cases h
  · rw [if_neg hcfg] at h
    dsimp only at h
    cases hocc : totalOccupation m.moCoeffB.isSome
        (extractMoOccupationVector m m.moCoeffB.isSome) with
    | error e1 => rw [hocc] at h; cases h
    | ok occT =>
      rw [hocc] at h
      dsimp only at h
      cases hdet : determineActiveSpace m c occT m.moCoeffB.isSome with
      | error e2 => rw [hdet] at h; cases h
      | ok trip =>
        rw [hdet] at h
        obtain ⟨act, inact, parts⟩ := trip
        dsimp only at h
        cases hsl : sliceArrays m.dim m.moCoeffB.isSome m
            (extractMoOccupationVector m m.moCoeffB.isSome) act inact with
        | error e3 => rw [hsl] at h; cases h
        | ok sl =>
          rw [hsl] at h
          dsimp only at h
          cases hoe : selectVec m.dim m.orbitalEnergies act with
          | error e4 => rw [hoe] at h; cases h
          | ok oeA =>
            rw [hoe] at h
            dsimp only at h
            cases hob : selectOrbEnergiesB m.dim m.moCoeffB.isSome m act with
            | error e5 => rw [hob] at h; cases h
            | ok oeB =>
              rw [hob] at h
              dsimp only at h
              cases h
              exact ⟨Bool.not_eq_false _ ▸ hcfg, rfl, rfl, rfl, hdet, hsl,
                hoe, hob⟩

lemma pyGetV_ok_of_bounds {n : ℕ} {v : Vec} {i : ℤ}
    (h : pyInBounds n i = true) : ∃ q, pyGetV n v i = Except.ok q := by
  unfold pyInBounds at h
  rw [decide_eq_true_eq] at h
  unfold pyGetV
  by_cases h1 : 0 ≤ i ∧ i < (n : ℤ)
  · rw [if_pos h1]
    exact ⟨_, rfl⟩
  · rw [if_neg h1, if_pos ⟨h.1, by omega⟩]
    exact ⟨_, rfl⟩

lemma pySumAt_ok_of_bounds {n : ℕ} {v : Vec} {idxs : List ℤ}
    (h : idxs.all (pyInBounds n) = true) :
    ∃ s, pySumAt n v idxs = Except.ok s := by
  unfold pySumAt
  have := foldlM_ok_inv (fun acc i => do
      let x ← pyGetV n v i
      pure (acc + x)) (fun _ => True) idxs ?_ 0 trivial
  · obtain ⟨s, hs, -⟩ := this
    exact ⟨s, hs⟩
  · intro b x hx _
    obtain ⟨q, hq⟩ := pyGetV_ok_of_bounds (List.all_eq_true.mp h x hx)
    refine ⟨b + q, ?_, trivial⟩
    show (pyGetV n v x >>= fun y => pure (b + y)) = Except.ok (b + q)
    rw [exceptBind_okv _ _ _ hq]
    rfl

lemma filter_intRange_all_bounds (n : ℕ) (p : ℤ → Bool) :
    ((intRange 0 (n : ℤ)).filter p).all (pyInBounds n) = true := by
  rw [List.all_eq_true]
  intro x hx
  have hm := List.mem_of_mem_filter hx
  rw [mem_intRange] at hm
  unfold pyInBounds
  rw [decide_eq_true_eq]
  omega

lemma determine_freeze_ok (m : Molecule) (c : Config) (occT : Vec) (β : Bool)
    (hfc : c.freezeCore = true)
    (hb : (m.coreOrbitals ++ c.removeOrbitals.getD []).all
      (pyInBounds m.dim) = true) :
    ∃ parts, determineActiveSpace m c occT β = Except.ok
      (((intRange 0 (m.dim : ℤ)).filter
          (fun o => decide (o ∉ m.coreOrbitals ++ c.removeOrbitals.getD []))),
        m.coreOrbitals ++ c.removeOrbitals.getD [], parts) := by
  obtain ⟨s, hs⟩ := pySumAt_ok_of_bounds (v := occT) hb
  refine ⟨(((⌊((m.numAlpha + m.numBeta - s) - ((m.multiplicity : ℚ) - 1)) / 2⌋ : ℤ) : ℚ),
    (m.numAlpha + m.numBeta - s) -
      ((⌊((m.numAlpha + m.numBeta - s) - ((m.multiplicity : ℚ) - 1)) / 2⌋ : ℤ) : ℚ)), ?_⟩
  unfold determineActiveSpace
  rw [hfc]
  simp only [if_true, Bind.bind, Except.bind]
  rw [hs]
  rfl


/-! ### Claim C10 -/

/-- Claim C10 counterexample: with `freeze_core=True` and
`remove_orbitals=[5]` on the 1-orbital molecule `mol1`, the occupation
lookup `mo_occ_total[5]` raises an `IndexError` — the remove list is not
"accepted" even though no explicit validation exists. -/
theorem c10_freeze_core_counterexample :
    errOf (transform mol1
      { numElectrons := none, numMolecularOrbitals := none, numAlpha := none,
        activeOrbitals := none, freezeCore := true,
        removeOrbitals := some [5] }) = some PyErr.errIndex
    ∧ pyInBounds mol1.dim 5 = false := by
  constructor
  · rfl
  · decide

/-- Claim C10 (amended): with `freeze_core` enabled, `transform` performs
none of the numeric active-space validations: it can never raise the
more-electrons, odd-inactive-electrons, more-orbitals,
orbital-index-count-mismatch or electron-count-mismatch errors (its only
failure modes are `IndexError`, `TypeError` and `ValueError`), and
`remove_orbitals` undergoes no range or occupancy validation — for a
spin-restricted molecule any core/remove indices within Python bounds
`[-n, n)` are accepted and `transform` succeeds, with no check that the
removed orbitals are unoccupied. -/
theorem c10_freeze_core_skips_validation_amended (m : Molecule) (c : Config)
    (hfc : c.freezeCore = true) :
    (transform m c ≠ Except.error PyErr.errMoreElectrons
      ∧ transform m c ≠ Except.error PyErr.errOddInactive
      ∧ transform m c ≠ Except.error PyErr.errMoreOrbitals
      ∧ transform m c ≠ Except.error PyErr.errNumOrbitalsMismatch
      ∧ transform m c ≠ Except.error PyErr.errElectronMismatch)
    ∧ (m.moCoeffB.isSome = false →
        (m.coreOrbitals ++ c.removeOrbitals.getD []).all
          (pyInBounds m.dim) = true →
        ∃ r, transform m c = Except.ok r) := by
  have hchar : ∀ e, transform m c = Except.error e →
      e = PyErr.errIndex ∨ e = PyErr.errType ∨ e = PyErr.errValue := by
    intro e h
    rcases transform_err_inv h with hp | ⟨d, _, hb⟩
    · rcases transformPrep_err_cases hp with ⟨-, hbad⟩ | h1 | h1 | ⟨occT, -, hdet⟩
      · rw [checkConfiguration_freeze hfc] at hbad
        cases hbad
      · exact Or.inr (Or.inl h1)
      · exact Or.inl h1
      · exact Or.inl (determine_freeze_err m c occT _ hfc hdet)
    · rcases transformBody_err_cases hb with h1 | h1
      · exact Or.inr (Or.inr h1)
      · exact Or.inr (Or.inl h1)
  constructor
  · refine ⟨fun h => ?_, fun h => ?_, fun h => ?_, fun h => ?_, fun h => ?_⟩ <;>
      rcases hchar _ h with h1 | h1 | h1 <;> cases h1
  · intro hβ hbnd
    set occF := extractMoOccupationVector m m.moCoeffB.isSome with hoccF
    have h1 : totalOccupation m.moCoeffB.isSome occF = Except.ok occF.1 := by
      rw [hβ]; rfl
    obtain ⟨parts, h2⟩ := determine_freeze_ok m c occF.1 m.moCoeffB.isSome hfc hbnd
    set inactL := m.coreOrbitals ++ c.removeOrbitals.getD [] with hinactL
    set actL := (intRange 0 (m.dim : ℤ)).filter
      (fun o => decide (o ∉ inactL)) with hactL
    have hactb : actL.all (pyInBounds m.dim) = true :=
      filter_intRange_all_bounds m.dim _
    have h3 : sliceArrays m.dim m.moCoeffB.isSome m occF actL inactL =
        Except.ok ⟨colSel m.dim m.moCoeff inactL, none,
          colSel m.dim m.moCoeff actL, none, vecSel m.dim occF.1 inactL, none⟩ := by
      rw [hβ]
      unfold sliceArrays selectCols selectVec selColsOpt selVecOpt
      rw [if_pos hbnd, if_pos hactb, if_pos hbnd]
      rfl
    have h4 : selectVec m.dim m.orbitalEnergies actL =
        Except.ok (vecSel m.dim m.orbitalEnergies actL) := by
      unfold selectVec
      rw [if_pos hactb]
    have h5 : selectOrbEnergiesB m.dim m.moCoeffB.isSome m actL =
        Except.ok none := by
      rw [hβ]; rfl
    have hprep : transformPrep m c = Except.ok
        ⟨m.dim, m.moCoeffB.isSome, occF.1, actL, inactL, parts,
          ⟨colSel m.dim m.moCoeff inactL, none, colSel m.dim m.moCoeff actL,
            none, vecSel m.dim occF.1 inactL, none⟩,
          vecSel m.dim m.orbitalEnergies actL, none⟩ := by
      unfold transformPrep
      rw [if_neg (by rw [checkConfiguration_freeze hfc]; exact fun hh => nomatch hh)]
      dsimp only
      rw [← hoccF, h1]
      dsimp only
      rw [h2]
      dsimp only
      rw [h3]
      dsimp only
      rw [h4]
      dsimp only
      rw [h5]
    refine ⟨bodyR m c ⟨m.dim, m.moCoeffB.isSome, occF.1, actL, inactL, parts,
      ⟨colSel m.dim m.moCoeff inactL, none, colSel m.dim m.moCoeff actL,
        none, vecSel m.dim occF.1 inactL, none⟩,
      vecSel m.dim m.orbitalEnergies actL, none⟩, ?_⟩
    rw [transform_of_prep_ok m c _ hprep]
    exact transformBody_restricted m c _ hβ

/-- Witness for the amended C10: `freeze_core` with `remove_orbitals=[0]` on
the occupied orbital of `mol1` is accepted without any occupancy check and
`transform` succeeds. -/
theorem c10_freeze_core_skips_validation_amended_witness :
    isOkE (transform mol1
      { numElectrons := none, numMolecularOrbitals := none, numAlpha := none,
        activeOrbitals := none, freezeCore := true,
        removeOrbitals := some [0] }) = true := by
  obtain ⟨r, hr⟩ := (c10_freeze_core_skips_validation_amended mol1
    { numElectrons := none, numMolecularOrbitals := none, numAlpha := none,
      activeOrbitals := none, freezeCore := true,
      removeOrbitals := some [0] } rfl).2 rfl (by decide)
  rw [hr]
  rfl

/-! ### Claim C5 -/

/-- The explicit-branch inactive-list fold can only fail with an
`IndexError`. -/
lemma inactiveExplicit_err {n : ℕ} {occT : Vec} {bound : ℤ} {lst : List ℤ}
    {e : PyErr} (h : inactiveExplicit n occT bound lst = Except.error e) :
    e = PyErr.errIndex := by
  unfold inactiveExplicit at h
  refine foldlM_err_subset _ (fun e2 => e2 = PyErr.errIndex) _ ?_ [] e h
  intro b x _ e2 hb
  by_cases hmem : x ∈ lst
  · simp only [hmem, if_pos] at hb
    cases hb
  · simp only [hmem, if_neg, Bind.bind, Except.bind] at hb
    cases hg : pyGetV n occT x with
    | error e3 =>
      rw [hg] at hb
      cases hb
      exact pyGetV_err hg
    | ok q =>
      rw [hg] at hb
      dsimp only at hb
      by_cases hq : 0 < q
      · rw [if_pos hq] at hb; cases hb
      · rw [if_neg hq] at hb; cases hb

/-- Behaviour of `_validate_num_orbitals` with an explicit list, by cases on
the three checks in their evaluation order. -/
lemma validateNumOrbitals_explicit_cases (n : ℕ) (occT : Vec) (c : Config)
    (x : ℚ) (ne nmo : ℤ) (lst : List ℤ)
    (hmo : c.numMolecularOrbitals = some nmo)
    (hao : c.activeOrbitals = some lst)
    (hne : c.numElectrons = some ne) :
    (nmo ≠ (lst.length : ℤ) →
      validateNumOrbitals n occT c x = Except.error PyErr.errNumOrbitalsMismatch)
    ∧ (nmo = (lst.length : ℤ) → ∀ mx, lst.max? = some mx → (n : ℤ) ≤ mx →
      validateNumOrbitals n occT c x = Except.error PyErr.errMoreOrbitals)
    ∧ (nmo = (lst.length : ℤ) → ∀ mx, lst.max? = some mx → mx < (n : ℤ) →
        ∀ s, pySumAt n occT lst = Except.ok s → s ≠ (ne : ℚ) →
      validateNumOrbitals n occT c x = Except.error PyErr.errElectronMismatch)
    ∧ (nmo = (lst.length : ℤ) → ∀ mx, lst.max? = some mx → mx < (n : ℤ) →
        pySumAt n occT lst = Except.ok (ne : ℚ) →
      validateNumOrbitals n occT c x = Except.ok ()) := by
  unfold validateNumOrbitals
  rw [hmo, hao]
  dsimp only
  refine ⟨fun hlen => ?_, fun hlen mx hmx hge => ?_, fun hlen mx hmx hlt s hs hsne => ?_,
    fun hlen mx hmx hlt hs => ?_⟩
  · rw [if_pos hlen]
  · rw [if_neg (not_not.mpr hlen), hmx]
    dsimp only
    rw [if_pos hge]
  · rw [if_neg (not_not.mpr hlen), hmx]
    dsimp only
    rw [if_neg (not_le.mpr hlt)]
    simp only [Bind.bind, Except.bind]
    rw [hs, hne]
    dsimp only
    rw [if_pos hsne]
  · rw [if_neg (not_not.mpr hlen), hmx]
    dsimp only
    rw [if_neg (not_le.mpr hlt)]
    simp only [Bind.bind, Except.bind]
    rw [hs, hne]
    dsimp only
    rw [if_neg (not_not.mpr rfl)]

/-- A failing `_validate_num_orbitals` (after a passing electron validation)
propagates its error out of `_determine_active_space`. -/
lemma determine_err_of_validateOrbitals (m : Molecule) (c : Config)
    (occT : Vec) (β : Bool) (ne : ℤ) (e : PyErr)
    (hfc : c.freezeCore = false) (hne : c.numElectrons = some ne)
    (hv1 : validateNumElectrons (m.numAlpha + m.numBeta - (ne : ℚ)) =
      Except.ok ())
    (hv2 : validateNumOrbitals m.dim occT c
      (m.numAlpha + m.numBeta - (ne : ℚ)) = Except.error e) :
    determineActiveSpace m c occT β = Except.error e := by
  unfold determineActiveSpace
  rw [hfc]
  simp only [Bool.false_eq_true, if_false]
  rw [hne]
  dsimp only
  simp only [Bind.bind, Except.bind]
  rw [hv1]
  dsimp only
  rw [hv2]

/-- With both validations passing, the explicit branch of
`_determine_active_space` can only fail with an `IndexError` (from the
inactive-list occupation lookups). -/
lemma determine_explicit_err (m : Molecule) (c : Config) (occT : Vec)
    (β : Bool) (ne : ℤ) (lst : List ℤ) (e : PyErr)
    (hfc : c.freezeCore = false) (hne : c.numElectrons = some ne)
    (hao : c.activeOrbitals = some lst)
    (hv1 : validateNumElectrons (m.numAlpha + m.numBeta - (ne : ℚ)) =
      Except.ok ())
    (hv2 : validateNumOrbitals m.dim occT c
      (m.numAlpha + m.numBeta - (ne : ℚ)) = Except.ok ())
    (h : determineActiveSpace m c occT β = Except.error e) :
    e = PyErr.errIndex := by
  unfold determineActiveSpace at h
  rw [hfc] at h
  simp only [Bool.false_eq_true, if_false] at h
  rw [hne] at h
  dsimp only at h
  simp only [Bind.bind, Except.bind] at h
  rw [hv1] at h
  dsimp only at h
  rw [hv2] at h
  dsimp only at h
  rw [hao] at h
  dsimp only at h
  cases hie : inactiveExplicit m.dim occT ⌊(m.numAlpha + m.numBeta) / 2⌋ lst with
  | error e2 =>
    rw [hie] at h
    cases h
    exact inactiveExplicit_err hie
  | ok res => rw [hie] at h; cases h

/-- The preparation-phase data of a restricted molecule, given the
determined index lists. -/
def stageOf (m : Molecule) (c : Config) (act inact : List ℤ)
    (parts : ℚ × ℚ) : StageData :=
  ⟨m.dim, false, (extractMoOccupationVector m false).1, act, inact, parts,
   ⟨colSel m.dim m.moCoeff inact, none, colSel m.dim m.moCoeff act, none,
    vecSel m.dim (extractMoOccupationVector m false).1 inact, none⟩,
   vecSel m.dim m.orbitalEnergies act, none⟩

/-- For a spin-restricted molecule whose determined index lists are within
Python bounds, `transform` succeeds with the closed-form result. -/
lemma transform_restricted_ok (m : Molecule) (c : Config)
    (act inact : List ℤ) (parts : ℚ × ℚ)
    (hβ : m.moCoeffB.isSome = false)
    (hcfg : checkConfiguration c = true)
    (hdet : determineActiveSpace m c (extractMoOccupationVector m false).1
      false = Except.ok (act, inact, parts))
    (hactb : act.all (pyInBounds m.dim) = true)
    (hinactb : inact.all (pyInBounds m.dim) = true) :
    transform m c = Except.ok (bodyR m c (stageOf m c act inact parts)) := by
  have h1 : totalOccupation false (extractMoOccupationVector m false) =
      Except.ok (extractMoOccupationVector m false).1 := rfl
  have h3 : sliceArrays m.dim false m (extractMoOccupationVector m false)
      act inact =
        Except.ok ⟨colSel m.dim m.moCoeff inact, none,
          colSel m.dim m.moCoeff act, none,
          vecSel m.dim (extractMoOccupationVector m false).1 inact, none⟩ := by
    unfold sliceArrays selectCols selectVec selColsOpt selVecOpt
    rw [if_pos hinactb, if_pos hactb, if_pos hinactb]
    rfl
  have h4 : selectVec m.dim m.orbitalEnergies act =
      Except.ok (vecSel m.dim m.orbitalEnergies act) := by
    unfold selectVec
    rw [if_pos hactb]
  have h5 : selectOrbEnergiesB m.dim false m act = Except.ok none := rfl
  have hprep : transformPrep m c = Except.ok (stageOf m c act inact parts) := by
    unfold transformPrep stageOf
    rw [if_neg (by rw [hcfg]; exact fun hh => nomatch hh)]
    dsimp only
    rw [hβ, h1]
    dsimp only
    rw [hdet]
    dsimp only
    rw [h3]
    dsimp only
    rw [h4]
    dsimp only
    rw [h5]
  rw [transform_of_prep_ok m c _ hprep]
  exact transformBody_restricted m c _ (by rfl)

/-- Claim C5 (amended): with an explicit `active_orbitals` list (and the
electron validation passing), `transform` fails with the ActiveSpaceError
naming the mismatch when the list length differs from
`num_molecular_orbitals`, when the **maximum** listed index reaches
`num_orbitals` (negative indices are not range-checked), or when the listed
orbitals' occupations — read with Python's index semantics — do not sum to
`num_electrons`; when the length matches, the maximum index is in range and
the occupation sum matches, none of these three errors is raised. -/
theorem c5_explicit_list_validation_amended (m : Molecule) (c : Config) (occT : Vec) (ne nmo : ℤ)
    (lst : List ℤ)
    (hfc : c.freezeCore = false) (hne : c.numElectrons = some ne)
    (hmo : c.numMolecularOrbitals = some nmo)
    (hao : c.activeOrbitals = some lst)
    (hocc : totalOccupation m.moCoeffB.isSome
      (extractMoOccupationVector m m.moCoeffB.isSome) = Except.ok occT)
    (hv1 : validateNumElectrons (m.numAlpha + m.numBeta - (ne : ℚ)) =
      Except.ok ()) :
    (nmo ≠ (lst.length : ℤ) →
      transform m c = Except.error PyErr.errNumOrbitalsMismatch)
    ∧ (nmo = (lst.length : ℤ) → ∀ mx, lst.max? = some mx →
        (m.dim : ℤ) ≤ mx →
      transform m c = Except.error PyErr.errMoreOrbitals)
    ∧ (nmo = (lst.length : ℤ) → ∀ mx, lst.max? = some mx →
        mx < (m.dim : ℤ) → ∀ s, pySumAt m.dim occT lst = Except.ok s →
        s ≠ (ne : ℚ) →
      transform m c = Except.error PyErr.errElectronMismatch)
    ∧ (nmo = (lst.length : ℤ) → ∀ mx, lst.max? = some mx →
        mx < (m.dim : ℤ) → pySumAt m.dim occT lst = Except.ok ((ne : ℚ)) →
        transform m c ≠ Except.error PyErr.errNumOrbitalsMismatch
        ∧ transform m c ≠ Except.error PyErr.errMoreOrbitals
        ∧ transform m c ≠ Except.error PyErr.errElectronMismatch) := by
  have hcfg : checkConfiguration c = true := by
    unfold checkConfiguration
    rw [hne, hmo, hfc]
    rfl
  obtain ⟨hc1, hc2, hc3, hc4⟩ := validateNumOrbitals_explicit_cases m.dim occT c
    (m.numAlpha + m.numBeta - (ne : ℚ)) ne nmo lst hmo hao hne
  refine ⟨fun hlen => ?_, fun hlen mx hmx hge => ?_,
    fun hlen mx hmx hlt s hs hsne => ?_, fun hlen mx hmx hlt hs => ?_⟩
  · exact transform_err_of_prep m c _ (prep_err_of_determine m c occT _ hcfg hocc
      (determine_err_of_validateOrbitals m c occT _ ne _ hfc hne hv1 (hc1 hlen)))
  · exact transform_err_of_prep m c _ (prep_err_of_determine m c occT _ hcfg hocc
      (determine_err_of_validateOrbitals m c occT _ ne _ hfc hne hv1
        (hc2 hlen mx hmx hge)))
  · exact transform_err_of_prep m c _ (prep_err_of_determine m c occT _ hcfg hocc
      (determine_err_of_validateOrbitals m c occT _ ne _ hfc hne hv1
        (hc3 hlen mx hmx hlt s hs hsne)))
  · have hv2 := hc4 hlen mx hmx hlt hs
    have key : ∀ E, transform m c = Except.error E →
        E = PyErr.errType ∨ E = PyErr.errIndex ∨ E = PyErr.errValue := by
      intro E h
      rcases transform_err_inv h with hp | ⟨d, _, hb⟩
      · rcases transformPrep_err_cases hp with ⟨-, hbad⟩ | h1 | h1 | ⟨o2, ho2, hdt⟩
        · rw [hcfg] at hbad; cases hbad
        · exact Or.inl h1
        · exact Or.inr (Or.inl h1)
        · have : o2 = occT := by
            rw [hocc] at ho2
            exact (Except.ok.injEq .. ▸ ho2).symm
          subst this
          exact Or.inr (Or.inl (determine_explicit_err m c o2 _ ne lst E hfc hne
            hao hv1 hv2 hdt))
      · rcases transformBody_err_cases hb with h1 | h1
        · exact Or.inr (Or.inr h1)
        · exact Or.inl h1
    refine ⟨fun h => ?_, fun h => ?_, fun h => ?_⟩ <;>
      rcases key _ h with h1 | h1 | h1 <;> cases h1

/-- Claim C5 counterexample: the explicit list `[-1, 0]` contains an index
outside `[0, num_orbitals)`, yet `transform` succeeds — Python's negative
index `-1` wraps around to orbital 1 and passes the `max(...) >= n` check,
so no ActiveSpaceError is raised. -/
theorem c5_negative_index_counterexample :
    isOkE (transform mol2
      { numElectrons := some 2, numMolecularOrbitals := some 2,
        numAlpha := none, activeOrbitals := some [-1, 0],
        freezeCore := false, removeOrbitals := none }) = true
    ∧ ¬ (0 ≤ (-1 : ℤ)) := by
  refine ⟨?_, by decide⟩
  have hdet : determineActiveSpace mol2
      { numElectrons := some 2, numMolecularOrbitals := some 2,
        numAlpha := none, activeOrbitals := some [-1, 0],
        freezeCore := false, removeOrbitals := none }
      (extractMoOccupationVector mol2 false).1 false =
      Except.ok ([-1, 0], [], (1, 1)) := by
    simp only [determineActiveSpace, validateNumElectrons, validateNumOrbitals,
      inactiveExplicit, pySumAt, pyGetV, floatMod2, mol2, Molecule.dim,
      extractMoOccupationVector, Option.getD, Bind.bind, Except.bind, intRange,
      listVec]
    norm_num
    rfl
  have hok := transform_restricted_ok mol2
    { numElectrons := some 2, numMolecularOrbitals := some 2,
      numAlpha := none, activeOrbitals := some [-1, 0],
      freezeCore := false, removeOrbitals := none }
    [-1, 0] [] (1, 1) rfl rfl hdet (by decide) (by decide)
  rw [hok]
  rfl

/-- Witness for the amended C5: three indices requested against
`num_molecular_orbitals = 2` raise the orbital-count-mismatch error. -/
theorem c5_explicit_list_validation_amended_witness :
    transform mol2
      { numElectrons := some 2, numMolecularOrbitals := some 2,
        numAlpha := none, activeOrbitals := some [0, 1, 2],
        freezeCore := false, removeOrbitals := none } =
      Except.error PyErr.errNumOrbitalsMismatch := by
  have h := c5_explicit_list_validation_amended mol2
    { numElectrons := some 2, numMolecularOrbitals := some 2,
      numAlpha := none, activeOrbitals := some [0, 1, 2],
      freezeCore := false, removeOrbitals := none }
    occ2 2 2 [0, 1, 2] rfl rfl rfl rfl rfl
    (by unfold validateNumElectrons floatMod2 mol2; norm_num)
  exact h.1 (by decide)

/-! ### Claims C9, C7 and C1 -/

/-- Inversion of a successful `transform` call: both the preparation stage
and the reduction stage succeeded. -/
lemma transform_ok_inv {m : Molecule} {c : Config} {r : Molecule}
    (h : transform m c = Except.ok r) :
    ∃ d, transformPrep m c = Except.ok d ∧ transformBody m c d = Except.ok r := by
  unfold transform transformTracked at h
  cases hp : transformPrep m c with
  | error e => rw [hp] at h; cases h
  | ok d =>
    rw [hp] at h
    dsimp only at h
    cases hb : transformBody m c d with
    | error e => rw [hb] at h; cases h
    | ok red =>
      rw [hb] at h
      dsimp only at h
      cases h
      exact ⟨d, rfl, hb⟩

/-- The reduced MO-basis dipole integrals of an axis. -/
def dipMoOf (r : Molecule) : Axis → Mat
  | Axis.x => r.xDipMoInts
  | Axis.y => r.yDipMoInts
  | Axis.z => r.zDipMoInts

/-- The dipole energy-shift dictionary of an axis. -/
def dipShiftOf (r : Molecule) : Axis → ShiftDict
  | Axis.x => r.xDipEnergyShift
  | Axis.y => r.yDipEnergyShift
  | Axis.z => r.zDipEnergyShift

/-- The `j`-th element of `list(range(0, n))`. -/
lemma intRange_zero_getD (n j : ℕ) (hj : j < n) :
    (intRange 0 (n : ℤ)).getD j 0 = (j : ℤ) := by
  unfold intRange
  rw [List.getD_eq_getElem?_getD]
  rw [List.getElem?_map]
  rw [List.getElem?_range (by omega : j < ((n : ℤ) - 0).toNat)]
  simp

/-- Selecting the full column range `M[:, range(0, n)]` leaves every
in-range column in place. -/
lemma colSel_intRange (n : ℕ) (M : Mat) (p i : ℕ) (hi : i < n) :
    colSel n M (intRange 0 (n : ℤ)) p i = M p i := by
  unfold colSel
  rw [intRange_zero_getD n i hi]
  simp [pyIdx]

/-- Every index of `list(range(0, n))` is within Python bounds. -/
lemma intRange_all_inBounds (n : ℕ) :
    (intRange 0 (n : ℤ)).all (pyInBounds n) = true := by
  rw [List.all_eq_true]
  intro x hx
  rw [mem_intRange] at hx
  unfold pyInBounds
  rw [decide_eq_true_eq]
  omega

/-- With an empty inactive block the density matrix vanishes, and with it
the Coulomb contraction. -/
lemma coulombInactive_emptyD (n : ℕ) (er : Ten4) (C : Mat) (v : Vec)
    (k l : ℕ) : coulombInactive n er (densityMat 0 C v) k l = 0 := by
  simp [coulombInactive, densityMat]

/-- With an empty inactive block the exchange contraction vanishes. -/
lemma exchangeInactive_emptyD (n : ℕ) (er : Ten4) (C : Mat) (v : Vec)
    (i l : ℕ) : exchangeInactive n er (densityMat 0 C v) i l = 0 := by
  simp [exchangeInactive, densityMat]

/-- With an empty inactive block the inactive Fock operator is the bare
core Hamiltonian. -/
lemma restrictedFock_emptyD (n : ℕ) (h : Mat) (er : Ten4) (C : Mat) (v : Vec)
    (i j : ℕ) : restrictedFock n h er (densityMat 0 C v) i j = h i j := by
  simp [restrictedFock, coulombInactive_emptyD, exchangeInactive_emptyD]

/-- With an empty inactive block the inactive energy shift is zero. -/
lemma restrictedShift_empty (n : ℕ) (h F : Mat) (D : Mat) :
    restrictedShift n 0 h F D = 0 := by
  simp [restrictedShift]

/-- Claim C9: `transform` never mutates its input: the final state of the
input record threaded through the call equals the record the call was
entered with, whether the call returns a reduced record or raises, for
every configuration (including `freeze_core` with a `remove_orbitals`
list). -/
theorem c9_no_input_mutation (m : Molecule) (c : Config) :
    (transformTracked m c).2 = m := by
  unfold transformTracked
  cases transformPrep m c with
  | error e => rfl
  | ok d =>
    dsimp only
    cases transformBody m c d with
    | error e => rfl
    | ok red => rfl

/-- Claim C7: whenever `transform` succeeds, the preparation stage succeeded
on a spin-restricted record (an unrestricted record never reaches a
successful exit), and each dipole axis was reduced by the same
`_reduce_to_active_space` procedure as the electronic integrals, with the
axis's AO dipole matrix substituted for the core Hamiltonian and no
two-body tensor: the stored AO dipole matrix is the unchanged input, the
stored MO dipole matrix is its active-basis projection, and the axis's own
energy-shift entry is the inactive-energy formula evaluated on the dipole
matrix. -/
theorem c7_dipole_electronic_reduction (m : Molecule) (c : Config) (r : Molecule)
    (h : transform m c = Except.ok r) :
    ∃ d : StageData, transformPrep m c = Except.ok d ∧ d.beta = false ∧
      ∀ a : Axis,
        reduceToActiveSpace false d.n d.inact.length d.sl.CactA d.sl.CactB
            (densityMat d.inact.length d.sl.CinA d.sl.occInA) none
            (dipAo m a, none) none =
          Except.ok (reduceOutR d.n d.inact.length d.sl.CactA
            (densityMat d.inact.length d.sl.CinA d.sl.occInA)
            (dipAo m a, none) none)
        ∧ dipAo r a = dipAo m a
        ∧ dipMoOf r a = activeOneBody d.n d.sl.CactA (dipAo m a)
        ∧ dipShiftOf r a = setShift (dipShiftOf m a) shiftKey
            (restrictedShift d.n d.inact.length (dipAo m a) (dipAo m a)
              (densityMat d.inact.length d.sl.CinA d.sl.occInA)) := by
  obtain ⟨d, hp, hb⟩ := transform_ok_inv h
  have hβ : d.beta = false := by
    cases hbt : d.beta with
    | false => rfl
    | true => exact absurd hb (transformBody_beta_ne_ok m c d hbt r)
  rw [transformBody_restricted m c d hβ] at hb
  cases hb
  refine ⟨d, hp, hβ, fun a => ?_⟩
  cases a with
  | x => exact ⟨reduce_restricted _ _ _ _ _ _ _ _, rfl, rfl, rfl⟩
  | y => exact ⟨reduce_restricted _ _ _ _ _ _ _ _, rfl, rfl, rfl⟩
  | z => exact ⟨reduce_restricted _ _ _ _ _ _ _ _, rfl, rfl, rfl⟩

/-- The full-space configuration for a 2-orbital, 2-electron record. -/
def cfgFull : Config := ⟨some 2, some 2, none, none, false, none⟩

/-- The record `transform` yields for `mol2` under `cfgFull`. -/
def mol2Red : Molecule :=
  bodyR mol2 cfgFull (stageOf mol2 cfgFull [0, 1] [] (1, 1))

/-- Under `cfgFull`, `_determine_active_space` selects both orbitals of
`mol2` as active, in increasing order, with no inactive orbitals. -/
lemma determine_mol2_cfgFull :
    determineActiveSpace mol2 cfgFull
      (extractMoOccupationVector mol2 false).1 false =
      Except.ok ([0, 1], [], (1, 1)) := by
  simp only [determineActiveSpace, validateNumElectrons, validateNumOrbitals,
    floatMod2, cfgFull, mol2, Molecule.dim, extractMoOccupationVector,
    Option.getD, Bind.bind, Except.bind, intRange, listVec]
  norm_num
  rfl

/-- `transform` succeeds on `mol2` under the full-space configuration. -/
lemma transform_mol2_cfgFull : transform mol2 cfgFull = Except.ok mol2Red :=
  transform_restricted_ok mol2 cfgFull [0, 1] [] (1, 1) rfl rfl
    determine_mol2_cfgFull (by decide) (by decide)

/-- Witness for C7: the full-space reduction of `mol2`, where `transform`
succeeds and every dipole axis satisfies the electronic-procedure
equations. -/
theorem c7_dipole_electronic_reduction_witness :
    ∃ d : StageData, transformPrep mol2 cfgFull = Except.ok d ∧ d.beta = false ∧
      ∀ a : Axis,
        reduceToActiveSpace false d.n d.inact.length d.sl.CactA d.sl.CactB
            (densityMat d.inact.length d.sl.CinA d.sl.occInA) none
            (dipAo mol2 a, none) none =
          Except.ok (reduceOutR d.n d.inact.length d.sl.CactA
            (densityMat d.inact.length d.sl.CinA d.sl.occInA)
            (dipAo mol2 a, none) none)
        ∧ dipAo mol2Red a = dipAo mol2 a
        ∧ dipMoOf mol2Red a = activeOneBody d.n d.sl.CactA (dipAo mol2 a)
        ∧ dipShiftOf mol2Red a = setShift (dipShiftOf mol2 a) shiftKey
            (restrictedShift d.n d.inact.length (dipAo mol2 a) (dipAo mol2 a)
              (densityMat d.inact.length d.sl.CinA d.sl.occInA)) :=
  c7_dipole_electronic_reduction mol2 cfgFull mol2Red transform_mol2_cfgFull

/-- Claim C1 counterexample: the explicit list `[1, 0]` makes the active set
equal to the full orbital set of the 2-orbital `mol2` and `transform`
succeeds, but the returned MO one-body integrals are the permuted
projection: entry `(0,0)` is `2`, not the input record's `1`. -/
theorem c1_identity_counterexample :
    ∃ r, transform mol2 ⟨some 2, some 2, none, some [1, 0], false, none⟩ =
        Except.ok r
      ∧ ¬ r.moOneeInts 0 0 = mol2.moOneeInts 0 0 := by
  have hdet : determineActiveSpace mol2
      ⟨some 2, some 2, none, some [1, 0], false, none⟩
      (extractMoOccupationVector mol2 false).1 false =
      Except.ok ([1, 0], [], (1, 1)) := by
    simp only [determineActiveSpace, validateNumElectrons, validateNumOrbitals,
      inactiveExplicit, pySumAt, pyGetV, floatMod2, mol2, Molecule.dim,
      extractMoOccupationVector, Option.getD, Bind.bind, Except.bind, intRange,
      listVec]
    norm_num
    rfl
  have hok := transform_restricted_ok mol2
    ⟨some 2, some 2, none, some [1, 0], false, none⟩ [1, 0] [] (1, 1)
    rfl rfl hdet (by decide) (by decide)
  refine ⟨_, hok, ?_⟩
  have hv : (bodyR mol2 ⟨some 2, some 2, none, some [1, 0], false, none⟩
      (stageOf mol2 ⟨some 2, some 2, none, some [1, 0], false, none⟩
        [1, 0] [] (1, 1))).moOneeInts 0 0 =
      activeOneBody 2 (colSel 2 mol2.moCoeff [1, 0])
        (restrictedFock 2 mol2.hcore mol2.eri
          (densityMat 0 (colSel 2 mol2.moCoeff [])
            (vecSel 2 (extractMoOccupationVector mol2 false).1 []))) 0 0 := rfl
  rw [hv]
  have hF : ∀ p q, restrictedFock 2 mol2.hcore mol2.eri
      (densityMat 0 (colSel 2 mol2.moCoeff [])
        (vecSel 2 (extractMoOccupationVector mol2 false).1 [])) p q =
      mol2.hcore p q := fun p q => restrictedFock_emptyD 2 _ _ _ _ p q
  simp only [activeOneBody, hF, Finset.sum_range_succ, Finset.sum_range_zero,
    colSel, pyIdx, mol2, listMat]
  norm_num
  rw [restrictedFock_emptyD]
  norm_num [listMat]

/-- A one-body active projection over the full column range in order equals
the projection by the untouched coefficient matrix. -/
lemma activeOneBody_fullRange (n : ℕ) (C M : Mat) (i j : ℕ)
    (hi : i < n) (hj : j < n) :
    activeOneBody n (colSel n C (intRange 0 (n : ℤ))) M i j =
      activeOneBody n C M i j := by
  unfold activeOneBody
  refine Finset.sum_congr rfl (fun p hp => Finset.sum_congr rfl (fun q hq => ?_))
  rw [colSel_intRange n C p i hi, colSel_intRange n C q j hj]

/-- A two-body active projection over the full column range in order equals
the projection by the untouched coefficient matrix. -/
lemma activeTwoBody_fullRange (n : ℕ) (C : Mat) (er : Ten4) (i j k l : ℕ)
    (hi : i < n) (hj : j < n) (hk : k < n) (hl : l < n) :
    activeTwoBody n (colSel n C (intRange 0 (n : ℤ)))
      (colSel n C (intRange 0 (n : ℤ))) (colSel n C (intRange 0 (n : ℤ)))
      (colSel n C (intRange 0 (n : ℤ))) er i j k l =
      activeTwoBody n C C C C er i j k l := by
  unfold activeTwoBody
  refine Finset.sum_congr rfl (fun p hp => Finset.sum_congr rfl (fun q hq =>
    Finset.sum_congr rfl (fun u hu => Finset.sum_congr rfl (fun v hv => ?_))))
  rw [colSel_intRange n C p i hi, colSel_intRange n C q j hj,
    colSel_intRange n C u k hk, colSel_intRange n C v l hl]

/-- Claim C1 (amended): for a spin-restricted molecule whose MO-basis
one-body, two-body and dipole fields are the active-basis projections of
its AO-basis fields by its own coefficient matrix, a valid configuration
whose determined active list is the full orbital range **in increasing
order** (with no inactive orbitals) returns a record whose one- and
two-body integrals and dipole tensors agree with the input's on all
in-range indices, and every energy shift recorded under the transformer's
key is `0.0`. -/
theorem c1_identity_amended (m : Molecule) (c : Config) (parts : ℚ × ℚ)
    (hβ : m.moCoeffB.isSome = false)
    (hcfg : checkConfiguration c = true)
    (hdet : determineActiveSpace m c (extractMoOccupationVector m false).1
      false = Except.ok (intRange 0 (m.dim : ℤ), [], parts))
    (hone : ∀ i j, i < m.dim → j < m.dim →
      m.moOneeInts i j = activeOneBody m.dim m.moCoeff m.hcore i j)
    (heri : ∀ i j k l, i < m.dim → j < m.dim → k < m.dim → l < m.dim →
      m.moEriInts i j k l =
        activeTwoBody m.dim m.moCoeff m.moCoeff m.moCoeff m.moCoeff
          m.eri i j k l)
    (hdip : ∀ a : Axis, ∀ i j, i < m.dim → j < m.dim →
      dipMoOf m a i j = activeOneBody m.dim m.moCoeff (dipAo m a) i j) :
    ∃ r, transform m c = Except.ok r
      ∧ (∀ i j, i < m.dim → j < m.dim →
          r.hcore i j = m.hcore i j
          ∧ r.moOneeInts i j = m.moOneeInts i j
          ∧ ∀ a : Axis, dipMoOf r a i j = dipMoOf m a i j)
      ∧ (∀ i j k l, i < m.dim → j < m.dim → k < m.dim → l < m.dim →
          r.moEriInts i j k l = m.moEriInts i j k l)
      ∧ r.eri = m.eri
      ∧ (∀ a : Axis, dipAo r a = dipAo m a)
      ∧ r.energyShift shiftKey = some 0
      ∧ (∀ a : Axis, dipShiftOf r a shiftKey = some 0) := by
  have hok := transform_restricted_ok m c (intRange 0 (m.dim : ℤ)) [] parts hβ
    hcfg hdet (intRange_all_inBounds m.dim) rfl
  have hF : ∀ p q, restrictedFock m.dim m.hcore m.eri
      (densityMat 0 (colSel m.dim m.moCoeff [])
        (vecSel m.dim (extractMoOccupationVector m false).1 [])) p q =
      m.hcore p q := fun p q => restrictedFock_emptyD m.dim _ _ _ _ p q
  have hshift : ∀ (dct : ShiftDict) (h F D : Mat),
      setShift dct shiftKey (restrictedShift m.dim 0 h F D) shiftKey =
        some 0 := by
    intro dct h F D
    rw [restrictedShift_empty]
    simp [setShift]
  refine ⟨_, hok, fun i j hi hj => ⟨hF i j, ?_, ?_⟩,
    fun i j k l hi hj hk hl => ?_, rfl, fun a => ?_, ?_, fun a => ?_⟩
  · show activeOneBody m.dim (colSel m.dim m.moCoeff (intRange 0 (m.dim : ℤ)))
        (restrictedFock m.dim m.hcore m.eri
          (densityMat 0 (colSel m.dim m.moCoeff [])
            (vecSel m.dim (extractMoOccupationVector m false).1 []))) i j =
      m.moOneeInts i j
    rw [hone i j hi hj]
    unfold activeOneBody
    refine Finset.sum_congr rfl (fun p hp =>
      Finset.sum_congr rfl (fun q hq => ?_))
    rw [hF, colSel_intRange m.dim m.moCoeff p i hi,
      colSel_intRange m.dim m.moCoeff q j hj]
  · intro a
    rw [hdip a i j hi hj]
    cases a with
    | x => exact activeOneBody_fullRange m.dim m.moCoeff m.xDipInts i j hi hj
    | y => exact activeOneBody_fullRange m.dim m.moCoeff m.yDipInts i j hi hj
    | z => exact activeOneBody_fullRange m.dim m.moCoeff m.zDipInts i j hi hj
  · rw [heri i j k l hi hj hk hl]
    exact activeTwoBody_fullRange m.dim m.moCoeff m.eri i j k l hi hj hk hl
  · cases a with
    | x => rfl
    | y => rfl
    | z => rfl
  · exact hshift m.energyShift m.hcore
      (restrictedFock m.dim m.hcore m.eri
        (densityMat 0 (colSel m.dim m.moCoeff [])
          (vecSel m.dim (extractMoOccupationVector m false).1 [])))
      (densityMat 0 (colSel m.dim m.moCoeff [])
        (vecSel m.dim (extractMoOccupationVector m false).1 []))
  · cases a with
    | x =>
        exact hshift m.xDipEnergyShift m.xDipInts m.xDipInts
          (densityMat 0 (colSel m.dim m.moCoeff [])
            (vecSel m.dim (extractMoOccupationVector m false).1 []))
    | y =>
        exact hshift m.yDipEnergyShift m.yDipInts m.yDipInts
          (densityMat 0 (colSel m.dim m.moCoeff [])
            (vecSel m.dim (extractMoOccupationVector m false).1 []))
    | z =>
        exact hshift m.zDipEnergyShift m.zDipInts m.zDipInts
          (densityMat 0 (colSel m.dim m.moCoeff [])
            (vecSel m.dim (extractMoOccupationVector m false).1 []))

/-- Witness for the amended C1: the full-space reduction of `mol2` under
`cfgFull` returns its integrals, dipole tensors and zero shifts. -/
theorem c1_identity_amended_witness :
    ∃ r, transform mol2 cfgFull = Except.ok r
      ∧ (∀ i j, i < mol2.dim → j < mol2.dim →
          r.hcore i j = mol2.hcore i j
          ∧ r.moOneeInts i j = mol2.moOneeInts i j
          ∧ ∀ a : Axis, dipMoOf r a i j = dipMoOf mol2 a i j)
      ∧ (∀ i j k l, i < mol2.dim → j < mol2.dim → k < mol2.dim →
            l < mol2.dim → r.moEriInts i j k l = mol2.moEriInts i j k l)
      ∧ r.eri = mol2.eri
      ∧ (∀ a : Axis, dipAo r a = dipAo mol2 a)
      ∧ r.energyShift shiftKey = some 0
      ∧ (∀ a : Axis, dipShiftOf r a shiftKey = some 0) := by
  refine c1_identity_amended mol2 cfgFull (1, 1) rfl rfl ?_ ?_ ?_ ?_
  · rw [show intRange 0 (mol2.dim : ℤ) = [0, 1] from by decide]
    exact determine_mol2_cfgFull
  · intro i j hi hj
    have hi2 : i < 2 := hi
    have hj2 : j < 2 := hj
    rw [show mol2.dim = 2 from rfl]
    interval_cases i <;> interval_cases j <;>
      norm_num [mol2, listMat, activeOneBody, Finset.sum_range_succ,
        Finset.sum_range_zero]
  · intro i j k l hi hj hk hl
    simp [mol2, activeTwoBody, zeroTen4, Finset.sum_const_zero]
  · intro a i j hi hj
    cases a <;>
      simp [mol2, dipMoOf, dipAo, activeOneBody, zeroMat,
        Finset.sum_const_zero]
